import Mathlib

/-!
# handleRTSP: the demux / decode / convert pipeline of `src/handleRTSP.cpp`

The program is one function, `main`, that drives three external libraries
(libavformat, libavcodec, libswscale) plus OpenCV.  The libraries are not part
of the repository, so their answers are inputs here: an `Env` scripts the return
value of every library call `main` makes, and `main env` is the run of the
program against that script.  The result of a run is the ordered list of library
calls it issued (its trace), the value `main` returns, and the final value of the
local variable `frame_count`.

Conventions of the embedding:

* C `int` results are `Int`; the tests `!= 0`, `< 0`, `>= 0` are the source's.
* `frame_count++` is a 32-bit signed increment (two's complement wrap-around).
* `static_cast<int>(dest_linesize)` truncates to 32 bits.
* Widths and heights are `Nat`: libavcodec never publishes a negative dimension.
* `video_stream_index = i` converts an `unsigned int` below `nb_streams` to `int`;
  the demuxer caps the number of streams (`max_streams`, 1000 by default), so
  the conversion is exact and the index is the position in the stream list.
* A script that runs out answers like the library does at the end of data:
  `av_read_frame` returns `AVERROR_EOF`, `avcodec_receive_frame` returns
  `AVERROR(EAGAIN)`.
* Text written to `std::cout` / `std::cerr` is not part of the trace.
* `av_packet_alloc` and `av_frame_alloc` are taken to succeed (the source does
  not test their result).
-/

namespace HandleRTSP

/-! ## Data model -/

/-- Media kind of an elementary stream (`enum AVMediaType`). -/
inductive AVMediaType
  | UNKNOWN
  | VIDEO
  | AUDIO
  | DATA
  | SUBTITLE
  | ATTACHMENT
  deriving DecidableEq, Repr

/-- Codec parameters of a stream: the two fields `main` reads. -/
structure AVCodecParameters where
  codec_type : AVMediaType
  codec_id : Nat
  deriving DecidableEq, Repr

/-- One entry of `format_ctx->streams`.  `codecpar` is dereferenced
unconditionally at line 46, so it is a value, not a nullable pointer. -/
structure AVStream where
  codecpar : AVCodecParameters
  deriving DecidableEq, Repr

/-- A decoder implementation returned by `avcodec_find_decoder`. -/
structure AVCodec where
  id : Nat
  deriving DecidableEq, Repr

/-- An options dictionary, in insertion order. -/
abbrev AVDictionary := List (String × String)

/-- Effect of `av_dict_set(&d, key, value, 0)`: replaces the entry of `key`. -/
def av_dict_set (d : AVDictionary) (key value : String) : AVDictionary :=
  d.filter (fun e => e.1 != key) ++ [(key, value)]

/-- A demultiplexed packet: logical stream index, key flag, payload identity. -/
structure AVPacket where
  stream_index : Int
  key : Bool
  data : Nat
  deriving DecidableEq, Repr

/-- A decoded picture: its own dimensions and the identity of its planes. -/
structure AVFrame where
  width : Nat
  height : Nat
  data : Nat
  deriving DecidableEq, Repr

/-- The arguments a conversion context was created with (`sws_getContext`). -/
structure SwsContext where
  srcW : Nat
  srcH : Nat
  srcFormat : Nat
  dstW : Nat
  dstH : Nat
  dstFormat : Nat
  flags : Nat
  deriving DecidableEq, Repr

/-- Value of `AV_PIX_FMT_BGR24` in `enum AVPixelFormat`. -/
def AV_PIX_FMT_BGR24 : Nat := 3

/-- Value of `SWS_BILINEAR`. -/
def SWS_BILINEAR : Nat := 2

/-- Value of `CV_8UC3`: depth code 0 (8-bit unsigned), three channels. -/
def CV_8UC3 : Nat := 16

/-- Bytes of one channel for an OpenCV depth code. -/
def CV_DEPTH_SIZE (depth : Nat) : Nat :=
  match depth with
  | 0 => 1
  | 1 => 1
  | 2 => 2
  | 3 => 2
  | 4 => 4
  | 5 => 4
  | 6 => 8
  | _ => 2

/-- Bytes of one pixel for an OpenCV type code (`CV_ELEM_SIZE`). -/
def CV_ELEM_SIZE (type : Nat) : Nat :=
  (type / 8 + 1) * CV_DEPTH_SIZE (type % 8)

/-- The geometry of a `cv::Mat`: the raster frame handed to the sink. -/
structure Mat where
  rows : Nat
  cols : Nat
  type : Nat
  step : Nat
  datalen : Nat
  deriving DecidableEq, Repr

/-- Effect of `cv::Mat img(rows, cols, type)`: a fresh continuous matrix, whose
row stride is `cols` pixels and whose buffer holds `rows` such rows. -/
def Mat.create (rows cols type : Nat) : Mat :=
  { rows := rows, cols := cols, type := type,
    step := cols * CV_ELEM_SIZE type,
    datalen := cols * CV_ELEM_SIZE type * rows }

/-- Value of `AVERROR_EOF`, the tag `FFERRTAG('E','O','F',' ')` negated. -/
def AVERROR_EOF : Int := -541478725

/-- Value of `AVERROR(EAGAIN)` on Linux. -/
def AVERROR_EAGAIN : Int := -11

/-- Scripted answer of one `avcodec_receive_frame` call: its return value, the
frame it filled, and `codec_ctx->width` / `codec_ctx->height` as the call left
them (the decoder may update them when the stream changes resolution). -/
structure ReceiveStep where
  ret : Int
  frame : AVFrame
  codec_width : Nat
  codec_height : Nat
  deriving DecidableEq, Repr

/-- Scripted answer of one `av_read_frame` call, with the answers the decoder
gives if the packet is sent to it: the result of `avcodec_send_packet` and of
the `avcodec_receive_frame` calls that follow. -/
structure ReadStep where
  ret : Int
  packet : AVPacket
  send_ret : Int
  receives : List ReceiveStep
  deriving DecidableEq, Repr

/-- A packet as `av_packet_alloc` leaves it. -/
def AVPacket.blank : AVPacket := { stream_index := 0, key := false, data := 0 }

/-- A frame as `av_frame_alloc` leaves it. -/
def AVFrame.blank : AVFrame := { width := 0, height := 0, data := 0 }

/-- The answer of `avcodec_receive_frame` once its script is used up. -/
def ReceiveStep.eagain : ReceiveStep :=
  { ret := AVERROR_EAGAIN, frame := AVFrame.blank, codec_width := 0, codec_height := 0 }

/-- The answer of `av_read_frame` once its script is used up. -/
def ReadStep.eof : ReadStep :=
  { ret := AVERROR_EOF, packet := AVPacket.blank, send_ret := 0, receives := [] }

/-- Everything the outside world answers during one run of `main`. -/
structure Env where
  open_ret : Int
  stream_info_ret : Int
  streams : List AVStream
  decoders : List Nat
  alloc_ok : Bool
  params_ret : Int
  open2_ret : Int
  width : Nat
  height : Nat
  pix_fmt : Nat
  sws_ok : Bool
  reads : List ReadStep
  deriving Repr

/-- One library call issued by `main`, with the arguments and the result that
matter to the pipeline. -/
inductive Call
  | network_init
  | open_input (url : String) (opts : AVDictionary) (ret : Int)
  | find_stream_info (ret : Int)
  | dump_format
  | find_decoder (codec_id : Nat) (found : Bool)
  | alloc_context3 (ok : Bool)
  | parameters_to_context (ret : Int)
  | open2 (ret : Int)
  | packet_alloc
  | frame_alloc
  | sws_getContext (ctx : SwsContext) (ok : Bool)
  | read_frame (ret : Int) (pkt : AVPacket)
  | send_packet (pkt : AVPacket) (ret : Int)
  | receive_frame (r : ReceiveStep)
  | sws_scale (ctx : SwsContext) (src : AVFrame) (srcSliceY : Int) (srcSliceH : Nat)
      (dst : Mat) (dstStride : Int)
  | imwrite (filename : String) (img : Mat)
  | packet_unref
  | sws_freeContext
  | frame_free
  | packet_free
  | free_context
  | close_input
  | network_deinit
  deriving DecidableEq, Repr

/-- Result of a run: the calls issued in order, the value `main` returns and
the last value of `frame_count` (0 when the read loop is never reached). -/
structure Outcome where
  trace : List Call
  ret : Int
  frame_count : Int
  deriving DecidableEq, Repr

/-! ## The program -/

/-- Exit status the operating system reports for a value returned by `main`. -/
def exit_status (ret : Int) : Int := ret % 256

/-- Two's complement wrap-around of a 32-bit signed integer. -/
def wrapInt32 (x : Int) : Int := (x + 2147483648) % 4294967296 - 2147483648

/-- Conversion `static_cast<int>` of a `size_t`. -/
def static_cast_int (n : Nat) : Int := wrapInt32 (n : Int)

/-- Look-up `avcodec_find_decoder(id)`: the codec registered for `id`, if any. -/
def avcodec_find_decoder (decoders : List Nat) (id : Nat) : Option AVCodec :=
  if id ∈ decoders then some { id := id } else none

/-- Values of the locals `video_stream_index`, `codec`, `codec_params` after the
stream loop of lines 45-52, and the library calls the loop made. -/
structure Selection where
  video_stream_index : Int
  codec : Option AVCodec
  codec_params : Option AVCodecParameters
  calls : List Call
  deriving DecidableEq, Repr

/-- The loop of lines 45-52, started at index `i` on the streams from `i` on. -/
def findVideoStream (decoders : List Nat) : List AVStream → Nat → Selection
  | [], _ => { video_stream_index := -1, codec := none, codec_params := none, calls := [] }
  | s :: rest, i =>
    if s.codecpar.codec_type = AVMediaType.VIDEO then
      { video_stream_index := (i : Int),
        codec := avcodec_find_decoder decoders s.codecpar.codec_id,
        codec_params := some s.codecpar,
        calls := [Call.find_decoder s.codecpar.codec_id
                    (avcodec_find_decoder decoders s.codecpar.codec_id).isSome] }
    else findVideoStream decoders rest (i + 1)

/-- The options set at lines 18-22. -/
def format_opts : AVDictionary :=
  av_dict_set (av_dict_set (av_dict_set (av_dict_set (av_dict_set []
    "rtsp_transport" "tcp") "stimeout" "10000000") "vsync" "2")
    "err_detect" "careful") "skip_frame" "nokey"

/-- The stream locator of line 13. -/
def rtsp_url : String := "rtsp://your_rtsp_here"

/-- The inner loop of lines 105-122 from `frame_count = fc`: the calls issued
and the new `frame_count`. -/
def receiveLoop (sws : SwsContext) : List ReceiveStep → Int → List Call × Int
  | [], fc => ([Call.receive_frame ReceiveStep.eagain], fc)
  | r :: rs, fc =>
    if 0 ≤ r.ret then
      let img := Mat.create r.codec_height r.codec_width CV_8UC3
      let dest_linesize := img.step
      let rest := receiveLoop sws rs (wrapInt32 (fc + 1))
      (Call.receive_frame r
        :: Call.sws_scale sws r.frame 0 r.codec_height img (static_cast_int dest_linesize)
        :: Call.imwrite "frame.jpg" img
        :: rest.1, rest.2)
    else ([Call.receive_frame r], fc)

/-- The body of the read loop for one packet, lines 103-124. -/
def handlePacket (sws : SwsContext) (video_stream_index : Int) (r : ReadStep) (fc : Int) :
    List Call × Int :=
  if r.packet.stream_index = video_stream_index then
    if 0 ≤ r.send_ret then
      let d := receiveLoop sws r.receives fc
      (Call.send_packet r.packet r.send_ret :: d.1, d.2)
    else ([Call.send_packet r.packet r.send_ret], fc)
  else ([], fc)

/-- The read loop of lines 102-126 from `frame_count = fc`. -/
def readLoop (sws : SwsContext) (video_stream_index : Int) :
    List ReadStep → Int → List Call × Int
  | [], fc => ([Call.read_frame ReadStep.eof.ret ReadStep.eof.packet], fc)
  | r :: rs, fc =>
    if 0 ≤ r.ret then
      let body := handlePacket sws video_stream_index r fc
      let rest := readLoop sws video_stream_index rs body.2
      (Call.read_frame r.ret r.packet :: (body.1 ++ Call.packet_unref :: rest.1), rest.2)
    else ([Call.read_frame r.ret r.packet], fc)

/-- The conversion context requested at lines 88-92. -/
def swsOf (env : Env) : SwsContext :=
  { srcW := env.width, srcH := env.height, srcFormat := env.pix_fmt,
    dstW := env.width, dstH := env.height, dstFormat := AV_PIX_FMT_BGR24,
    flags := SWS_BILINEAR }

/-- The calls of lines 128-134. -/
def cleanup : List Call :=
  [Call.sws_freeContext, Call.frame_free, Call.packet_free, Call.free_context,
   Call.close_input, Call.network_deinit]

/-- The function `main` of `src/handleRTSP.cpp`, run against `env`. -/
def main (env : Env) : Outcome :=
  let t1 := [Call.network_init, Call.open_input rtsp_url format_opts env.open_ret]
  if env.open_ret ≠ 0 then
    { trace := t1, ret := -1, frame_count := 0 }
  else
  let t2 := t1 ++ [Call.find_stream_info env.stream_info_ret]
  if env.stream_info_ret < 0 then
    { trace := t2 ++ [Call.close_input], ret := -1, frame_count := 0 }
  else
  let sel := findVideoStream env.decoders env.streams 0
  let t3 := t2 ++ [Call.dump_format] ++ sel.calls
  if sel.video_stream_index = -1 ∨ sel.codec = none ∨ sel.codec_params = none then
    { trace := t3 ++ [Call.close_input], ret := -1, frame_count := 0 }
  else
  let t4 := t3 ++ [Call.alloc_context3 env.alloc_ok]
  if env.alloc_ok = false then
    { trace := t4 ++ [Call.close_input], ret := -1, frame_count := 0 }
  else
  let t5 := t4 ++ [Call.parameters_to_context env.params_ret]
  if env.params_ret < 0 then
    { trace := t5 ++ [Call.free_context, Call.close_input], ret := -1, frame_count := 0 }
  else
  let t6 := t5 ++ [Call.open2 env.open2_ret]
  if env.open2_ret < 0 then
    { trace := t6 ++ [Call.free_context, Call.close_input], ret := -1, frame_count := 0 }
  else
  let t7 := t6 ++ [Call.packet_alloc, Call.frame_alloc,
                   Call.sws_getContext (swsOf env) env.sws_ok]
  if env.sws_ok = false then
    { trace := t7 ++ [Call.free_context, Call.close_input], ret := -1, frame_count := 0 }
  else
  let loop := readLoop (swsOf env) sel.video_stream_index env.reads 0
  { trace := t7 ++ loop.1 ++ cleanup, ret := 0, frame_count := loop.2 }

/-! ## Notions used to state the properties -/

/-- No early return of `main` is taken: every set-up call succeeds. -/
def SetupOk (env : Env) : Prop :=
  env.open_ret = 0 ∧ 0 ≤ env.stream_info_ret ∧
  (findVideoStream env.decoders env.streams 0).video_stream_index ≠ -1 ∧
  (findVideoStream env.decoders env.streams 0).codec ≠ none ∧
  (findVideoStream env.decoders env.streams 0).codec_params ≠ none ∧
  env.alloc_ok = true ∧ 0 ≤ env.params_ret ∧ 0 ≤ env.open2_ret ∧ env.sws_ok = true

instance (env : Env) : Decidable (SetupOk env) := by
  unfold SetupOk
  infer_instance

/-- The selected stream index of a run. -/
def selectedIndex (env : Env) : Int :=
  (findVideoStream env.decoders env.streams 0).video_stream_index

/-- The calls of a successful set-up, lines 11-92. -/
def setupTrace (env : Env) : List Call :=
  [Call.network_init, Call.open_input rtsp_url format_opts env.open_ret,
   Call.find_stream_info env.stream_info_ret, Call.dump_format]
  ++ (findVideoStream env.decoders env.streams 0).calls
  ++ [Call.alloc_context3 env.alloc_ok, Call.parameters_to_context env.params_ret,
      Call.open2 env.open2_ret, Call.packet_alloc, Call.frame_alloc,
      Call.sws_getContext (swsOf env) env.sws_ok]

/-- The calls the read loop issues for a run of successfully read packets, not
counting the read that ends the loop. -/
def loopPrefix (sws : SwsContext) (video_stream_index : Int) :
    List ReadStep → Int → List Call × Int
  | [], fc => ([], fc)
  | r :: rs, fc =>
    let body := handlePacket sws video_stream_index r fc
    let rest := loopPrefix sws video_stream_index rs body.2
    (Call.read_frame r.ret r.packet :: (body.1 ++ Call.packet_unref :: rest.1), rest.2)

/-- Calls made inside the read loop. -/
def isLoopCall : Call → Bool
  | Call.read_frame _ _ => true
  | Call.send_packet _ _ => true
  | Call.receive_frame _ => true
  | Call.sws_scale _ _ _ _ _ _ => true
  | Call.imwrite _ _ => true
  | Call.packet_unref => true
  | _ => false

/-- A call to `av_read_frame`. -/
def isReadFrame : Call → Bool
  | Call.read_frame _ _ => true
  | _ => false

/-- A call to `avcodec_receive_frame` that returned a picture. -/
def isPicture : Call → Bool
  | Call.receive_frame r => decide (0 ≤ r.ret)
  | _ => false

/-- A call to `cv::imwrite`: a frame handed to the sink. -/
def isImwrite : Call → Bool
  | Call.imwrite _ _ => true
  | _ => false

/-- The packets `av_read_frame` delivered, in order. -/
def readPackets (t : List Call) : List AVPacket :=
  t.filterMap (fun c =>
    match c with
    | Call.read_frame ret p => if 0 ≤ ret then some p else none
    | _ => none)

/-- The packets given to `avcodec_send_packet`, in order. -/
def sentPackets (t : List Call) : List AVPacket :=
  t.filterMap (fun c =>
    match c with
    | Call.send_packet p _ => some p
    | _ => none)

/-- The conversion and hand-off of the picture of a receive step. -/
def convertCalls (sws : SwsContext) (r : ReceiveStep) : List Call :=
  [Call.sws_scale sws r.frame 0 r.codec_height
      (Mat.create r.codec_height r.codec_width CV_8UC3)
      (static_cast_int (Mat.create r.codec_height r.codec_width CV_8UC3).step),
   Call.imwrite "frame.jpg" (Mat.create r.codec_height r.codec_width CV_8UC3)]

/-- What must directly follow a call `c` in a trace whose remainder is `post`. -/
def Next (sws : SwsContext) (c : Call) (post : List Call) : Prop :=
  match c with
  | Call.receive_frame r =>
    (0 ≤ r.ret → ∃ rest, post = convertCalls sws r ++ rest) ∧
    (r.ret < 0 → ∃ rest, post = Call.packet_unref :: rest)
  | Call.imwrite _ _ => ∃ r rest, post = Call.receive_frame r :: rest
  | Call.send_packet _ ret =>
    (0 ≤ ret → ∃ r rest, post = Call.receive_frame r :: rest) ∧
    (ret < 0 → ∃ rest, post = Call.packet_unref :: rest)
  | _ => True

/-- Every call of `t` is followed in `t` by what `R` asks for. -/
def After (t : List Call) (R : Call → List Call → Prop) : Prop :=
  ∀ pre c post, t = pre ++ c :: post → R c post

/-- A call that asks the session or the decoder for more: a read, a submit or a
poll. -/
def isInput : Call → Bool
  | Call.read_frame _ _ => true
  | Call.send_packet _ _ => true
  | Call.receive_frame _ => true
  | _ => false

/-- Pictures and hand-offs balance in `t`: as many frames written as pictures
received overall; at every point of `t` at most one picture is received and not
yet written; none is when the next call is a read, a submit or a poll. -/
def Balanced (t : List Call) : Prop :=
  t.countP isPicture = t.countP isImwrite ∧
  ∀ pre post, t = pre ++ post →
    pre.countP isImwrite ≤ pre.countP isPicture ∧
    pre.countP isPicture ≤ pre.countP isImwrite + 1 ∧
    ∀ c rest, post = c :: rest → isInput c = true →
      pre.countP isPicture = pre.countP isImwrite

/-- The receive steps of a drain that returned a picture. -/
def pictures (rs : List ReceiveStep) : List ReceiveStep :=
  rs.takeWhile (fun r => decide (0 ≤ r.ret))

/-- A call to `avcodec_receive_frame`, whatever it returned. -/
def isPoll : Call → Bool
  | Call.receive_frame _ => true
  | _ => false

/-- The frames written come from pictures received: each `imwrite` of `t` is
of the matrix built for some picture received in `t`. -/
def ImwriteOrigin (t : List Call) : Prop :=
  ∀ name img, Call.imwrite name img ∈ t →
    ∃ r, Call.receive_frame r ∈ t ∧ 0 ≤ r.ret ∧ name = "frame.jpg" ∧
      img = Mat.create r.codec_height r.codec_width CV_8UC3

/-- The read steps that return a packet before the first failing read. -/
def delivered (rs : List ReadStep) : List ReadStep :=
  rs.takeWhile (fun r => decide (0 ≤ r.ret))

/-- Calls made between opening the session and entering the read loop. -/
def isEarlyCall : Call → Bool
  | Call.find_stream_info _ => true
  | Call.dump_format => true
  | Call.find_decoder _ _ => true
  | Call.alloc_context3 _ => true
  | Call.parameters_to_context _ => true
  | Call.open2 _ => true
  | Call.packet_alloc => true
  | Call.frame_alloc => true
  | Call.sws_getContext _ _ => true
  | _ => false

/-- The first two calls of every run. -/
def openTrace (env : Env) : List Call :=
  [Call.network_init, Call.open_input rtsp_url format_opts env.open_ret]

/-! ## Concrete runs -/

/-- An H.264 video stream (`AV_CODEC_ID_H264` is 27). -/
def videoStream : AVStream :=
  { codecpar := { codec_type := AVMediaType.VIDEO, codec_id := 27 } }

/-- An AAC audio stream (`AV_CODEC_ID_AAC` is 86018). -/
def audioStream : AVStream :=
  { codecpar := { codec_type := AVMediaType.AUDIO, codec_id := 86018 } }

/-- A camera advertising audio on stream 0 and 640x480 video on stream 1, whose
set-up succeeds and which delivers no packet before the end of the stream. -/
def cam : Env :=
  { open_ret := 0, stream_info_ret := 0, streams := [audioStream, videoStream],
    decoders := [27, 86018], alloc_ok := true, params_ret := 0, open2_ret := 0,
    width := 640, height := 480, pix_fmt := 0, sws_ok := true, reads := [] }

/-- A 640x480 picture with payload `n`, returned by a successful receive. -/
def pic (n : Nat) : ReceiveStep :=
  { ret := 0, frame := { width := 640, height := 480, data := n },
    codec_width := 640, codec_height := 480 }

/-- A video packet with payload `n`, accepted by the decoder, giving one picture. -/
def videoRead (n : Nat) (key : Bool) : ReadStep :=
  { ret := 0, packet := { stream_index := 1, key := key, data := n }, send_ret := 0,
    receives := [pic n] }

/-- The camera whose stream selection fails: it advertises audio only. -/
def camAudioOnly : Env := { cam with streams := [audioStream] }

/-- The camera delivering one video packet, then failing with `AVERROR(EIO)`
(-5) while a further packet would have been available. -/
def camReadError : Env :=
  { cam with reads := [videoRead 1 true,
      { ret := -5, packet := AVPacket.blank, send_ret := 0, receives := [] },
      videoRead 2 true] }

/-- The camera delivering one key video packet that decodes to one picture. -/
def camOnePicture : Env := { cam with reads := [videoRead 1 true] }

/-- The camera whose first video packet is rejected by the decoder with
`AVERROR_INVALIDDATA` (-1094995529) and whose second one decodes. -/
def camCorrupt : Env :=
  { cam with reads := [
      { ret := 0, packet := { stream_index := 1, key := true, data := 1 },
        send_ret := -1094995529, receives := [] },
      videoRead 2 true] }

/-- The camera whose first video packet is not a key packet. -/
def camNonKeyFirst : Env := { cam with reads := [videoRead 1 false, videoRead 2 true] }

/-- The camera whose decoder, opened at 640x480, returns a 1280x720 picture. -/
def camResized : Env :=
  { cam with reads := [
      { ret := 0, packet := { stream_index := 1, key := true, data := 1 }, send_ret := 0,
        receives := [{ ret := 0, frame := { width := 1280, height := 720, data := 1 },
                       codec_width := 1280, codec_height := 720 }] }] }

/-- The camera whose only video packet is rejected with `AVERROR(EAGAIN)`. -/
def camRejected : Env :=
  { cam with reads := [
      { ret := 0, packet := { stream_index := 1, key := true, data := 1 },
        send_ret := -11, receives := [pic 1] }] }

/-! ## Stream selection -/

theorem findVideoStream_index_ge (decoders : List Nat) (streams : List AVStream) (i : Nat) :
    (findVideoStream decoders streams i).video_stream_index = -1 ∨
      (i : Int) ≤ (findVideoStream decoders streams i).video_stream_index := by
  induction streams generalizing i with
  | nil => left; rfl
  | cons s rest ih =>
    unfold findVideoStream
    split_ifs with h
    · right; simp
    · rcases ih (i + 1) with h1 | h1
      · left; exact h1
      · right; push_cast at h1; omega

theorem findVideoStream_none_iff (decoders : List Nat) (streams : List AVStream) (i : Nat) :
    (findVideoStream decoders streams i).video_stream_index = -1 ↔
      ∀ s ∈ streams, s.codecpar.codec_type ≠ AVMediaType.VIDEO := by
  induction streams generalizing i with
  | nil => simp [findVideoStream]
  | cons s rest ih =>
    unfold findVideoStream
    split_ifs with h
    · simp only [List.mem_cons, forall_eq_or_imp, ne_eq, h, not_true_eq_false, false_and,
        iff_false]
    · simp only [List.mem_cons, forall_eq_or_imp, ne_eq, h, not_false_eq_true, true_and]
      exact ih (i + 1)

theorem findVideoStream_index_iff (decoders : List Nat) (streams : List AVStream) (i k : Nat) :
    (findVideoStream decoders streams i).video_stream_index = ((i + k : Nat) : Int) ↔
      (∃ s, streams[k]? = some s ∧ s.codecpar.codec_type = AVMediaType.VIDEO) ∧
        ∀ j, j < k → ∀ t, streams[j]? = some t → t.codecpar.codec_type ≠ AVMediaType.VIDEO := by
  induction streams generalizing i k with
  | nil => simp [findVideoStream]; omega
  | cons s rest ih =>
    unfold findVideoStream
    split_ifs with h
    · cases k with
      | zero => simp [h]
      | succ k =>
        constructor
        · intro hk; simp at hk; omega
        · rintro ⟨_, hall⟩
          exact absurd h (hall 0 (Nat.succ_pos k) s (by simp))
    · cases k with
      | zero =>
        constructor
        · intro hk
          rcases findVideoStream_index_ge decoders rest (i + 1) with h1 | h1
          · rw [h1] at hk; omega
          · rw [hk] at h1; push_cast at h1; omega
        · rintro ⟨⟨t, ht, hv⟩, _⟩
          simp at ht
          subst ht
          exact absurd hv h
      | succ k =>
        have e : ((i + (k + 1) : Nat) : Int) = ((i + 1 + k : Nat) : Int) := by
          push_cast; ring
        rw [e, ih (i + 1) k]
        constructor
        · rintro ⟨hex, hall⟩
          refine ⟨by simpa using hex, ?_⟩
          intro j hj t ht
          cases j with
          | zero => simp at ht; subst ht; exact h
          | succ j => exact hall j (by omega) t (by simpa using ht)
        · rintro ⟨hex, hall⟩
          refine ⟨by simpa using hex, ?_⟩
          intro j hj t ht
          exact hall (j + 1) (by omega) t (by simpa using ht)

theorem findVideoStream_params (decoders : List Nat) (streams : List AVStream) (i k : Nat)
    (s : AVStream) (hs : streams[k]? = some s)
    (hk : (findVideoStream decoders streams i).video_stream_index = ((i + k : Nat) : Int)) :
    (findVideoStream decoders streams i).codec_params = some s.codecpar ∧
      (findVideoStream decoders streams i).codec =
        avcodec_find_decoder decoders s.codecpar.codec_id := by
  induction streams generalizing i k with
  | nil => simp at hs
  | cons a rest ih =>
    unfold findVideoStream at hk ⊢
    split_ifs at hk ⊢ with h
    · have hk0 : k = 0 := by simp at hk; omega
      subst hk0
      simp at hs
      subst hs
      exact ⟨rfl, rfl⟩
    · cases k with
      | zero =>
        rcases findVideoStream_index_ge decoders rest (i + 1) with h1 | h1
        · rw [h1] at hk; omega
        · rw [hk] at h1; push_cast at h1; omega
      | succ k =>
        have e : ((i + (k + 1) : Nat) : Int) = ((i + 1 + k : Nat) : Int) := by
          push_cast; ring
        exact ih (i + 1) k (by simpa using hs) (by rw [hk, e])

/-- C1: the stream loop of `main` leaves in `video_stream_index` the smallest
index whose stream is a video stream (and in `codec_params` that stream's
descriptor); it leaves -1 exactly when no stream of the list is a video stream;
a list holding a single audio stream gives -1. -/
theorem C1_select_first_video (decoders : List Nat) (streams : List AVStream) :
    (∀ k : Nat, (findVideoStream decoders streams 0).video_stream_index = (k : Int) ↔
        (∃ s, streams[k]? = some s ∧ s.codecpar.codec_type = AVMediaType.VIDEO) ∧
          ∀ j, j < k → ∀ t, streams[j]? = some t →
            t.codecpar.codec_type ≠ AVMediaType.VIDEO) ∧
    (∀ (k : Nat) (s : AVStream), streams[k]? = some s →
        (findVideoStream decoders streams 0).video_stream_index = (k : Int) →
        (findVideoStream decoders streams 0).codec_params = some s.codecpar) ∧
    ((findVideoStream decoders streams 0).video_stream_index = -1 ↔
        ∀ s ∈ streams, s.codecpar.codec_type ≠ AVMediaType.VIDEO) ∧
    ((findVideoStream decoders streams 0).video_stream_index = -1 ∨
        ∃ k : Nat, (findVideoStream decoders streams 0).video_stream_index = (k : Int)) ∧
    (∀ id : Nat, (findVideoStream decoders
        [{ codecpar := { codec_type := AVMediaType.AUDIO, codec_id := id } }] 0
        ).video_stream_index = -1) := by
  refine ⟨?_, ?_, findVideoStream_none_iff decoders streams 0, ?_, ?_⟩
  · intro k
    have h := findVideoStream_index_iff decoders streams 0 k
    simpa using h
  · intro k s hs hk
    exact (findVideoStream_params decoders streams 0 k s hs (by simpa using hk)).1
  · rcases findVideoStream_index_ge decoders streams 0 with h | h
    · left; exact h
    · right
      refine ⟨(findVideoStream decoders streams 0).video_stream_index.toNat, ?_⟩
      rw [Int.toNat_of_nonneg]
      simpa using h
  · intro id
    simp [findVideoStream]

/-- C1 at the camera advertising audio on stream 0 and video on stream 1: the
index selected is 1; at the camera advertising audio only, it is -1. -/
theorem C1_select_first_video_witness :
    (findVideoStream cam.decoders cam.streams 0).video_stream_index = 1 ∧
    (findVideoStream camAudioOnly.decoders camAudioOnly.streams 0).video_stream_index = -1 :=
  ⟨((C1_select_first_video cam.decoders cam.streams).1 1).mpr (by decide),
    (C1_select_first_video camAudioOnly.decoders camAudioOnly.streams).2.2.1.mpr (by decide)⟩

/-! ## Shape of a run -/

theorem After_nil (R : Call → List Call → Prop) : After [] R := by
  intro pre c post h
  simp at h

theorem After_cons {R : Call → List Call → Prop} {x : Call} {l : List Call}
    (hx : R x l) (hl : After l R) : After (x :: l) R := by
  intro pre c post h
  cases pre with
  | nil =>
    simp only [List.nil_append, List.cons.injEq] at h
    obtain ⟨rfl, rfl⟩ := h
    exact hx
  | cons y pre =>
    simp only [List.cons_append, List.cons.injEq] at h
    exact hl pre c post h.2

theorem After_append_left {R : Call → List Call → Prop} (a b : List Call)
    (ha : ∀ c ∈ a, ∀ post, R c post) (hb : After b R) : After (a ++ b) R := by
  induction a with
  | nil => simpa using hb
  | cons x a ih =>
    rw [List.cons_append]
    exact After_cons (ha x (List.mem_cons_self x a) _)
      (ih (fun c hc => ha c (List.mem_cons_of_mem x hc)))

theorem Next_of_not_loop (sws : SwsContext) (c : Call) (post : List Call)
    (h : isLoopCall c = false) : Next sws c post := by
  cases c <;> simp [isLoopCall] at h <;> simp [Next]

theorem selection_calls (decoders : List Nat) (streams : List AVStream) (i : Nat) :
    ∀ c ∈ (findVideoStream decoders streams i).calls, ∃ id b, c = Call.find_decoder id b := by
  induction streams generalizing i with
  | nil => simp [findVideoStream]
  | cons s rest ih =>
    unfold findVideoStream
    split_ifs with h
    · intro c hc
      simp only [List.mem_singleton] at hc
      exact ⟨_, _, hc⟩
    · exact ih (i + 1)

theorem main_ok (env : Env) (h : SetupOk env) :
    main env =
      { trace := setupTrace env ++ (readLoop (swsOf env) (selectedIndex env) env.reads 0).1
                  ++ cleanup,
        ret := 0,
        frame_count := (readLoop (swsOf env) (selectedIndex env) env.reads 0).2 } := by
  obtain ⟨h1, h2, h3, h4, h5, h6, h7, h8, h9⟩ := h
  simp [main, setupTrace, selectedIndex, h1, h3, h4, h5, h6, h9, not_lt.mpr h2,
    not_lt.mpr h7, not_lt.mpr h8]

theorem selection_not_loop (decoders : List Nat) (streams : List AVStream) (i : Nat) :
    ∀ c ∈ (findVideoStream decoders streams i).calls, isLoopCall c = false := by
  intro c hc
  obtain ⟨id, b, rfl⟩ := selection_calls decoders streams i c hc
  rfl

theorem setupTrace_not_loop (env : Env) : ∀ c ∈ setupTrace env, isLoopCall c = false := by
  intro c hc
  simp only [setupTrace, List.mem_append, List.mem_cons, List.mem_singleton,
    List.not_mem_nil, or_false] at hc
  casesm* _ ∨ _
  all_goals first
    | (apply selection_not_loop; assumption)
    | (subst_vars; rfl)

theorem cleanup_not_loop : ∀ c ∈ cleanup, isLoopCall c = false := by
  intro c hc
  simp only [cleanup, List.mem_cons, List.mem_singleton, List.not_mem_nil, or_false] at hc
  casesm* _ ∨ _ <;> subst_vars <;> rfl

theorem main_fail (env : Env) (h : ¬ SetupOk env) :
    (main env).ret = -1 ∧ (main env).frame_count = 0 ∧
      ∀ c ∈ (main env).trace, isLoopCall c = false := by
  have hsel := selection_not_loop env.decoders env.streams 0
  unfold SetupOk at h
  simp only [main]
  split_ifs with h1 h2 h3 h4 h5 h6 h7
  case neg =>
    exfalso
    apply h
    push_neg at h1 h3
    simp only [Bool.not_eq_false] at h4 h7
    exact ⟨h1, by omega, h3.1, h3.2.1, h3.2.2, h4, by omega, by omega, h7⟩
  all_goals
    refine ⟨rfl, rfl, ?_⟩
    intro c hc
    simp only [List.mem_append, List.mem_cons, List.mem_singleton, List.not_mem_nil,
      or_false] at hc
    casesm* _ ∨ _
    all_goals first
      | (apply hsel; assumption)
      | (subst_vars; rfl)

/-! ## What follows each call of the read loop -/

theorem receiveLoop_head (sws : SwsContext) (rs : List ReceiveStep) (fc : Int) :
    ∃ r t, (receiveLoop sws rs fc).1 = Call.receive_frame r :: t := by
  cases rs with
  | nil => exact ⟨_, _, rfl⟩
  | cons r rs =>
    unfold receiveLoop
    split_ifs with h
    · exact ⟨_, _, rfl⟩
    · exact ⟨_, _, rfl⟩

theorem receiveLoop_after (sws : SwsContext) (rs : List ReceiveStep) (fc : Int)
    (tail : List Call) (ht : After tail (Next sws)) :
    After ((receiveLoop sws rs fc).1 ++ Call.packet_unref :: tail) (Next sws) := by
  induction rs generalizing fc with
  | nil =>
    refine After_cons ?_ (After_cons trivial ht)
    refine ⟨fun h => ?_, fun _ => ⟨tail, rfl⟩⟩
    simp [ReceiveStep.eagain, AVERROR_EAGAIN] at h
  | cons r rs ih =>
    unfold receiveLoop
    split_ifs with h
    · obtain ⟨r2, t2, h2⟩ := receiveLoop_head sws rs (wrapInt32 (fc + 1))
      refine After_cons ⟨fun _ => ⟨_, rfl⟩, fun hn => absurd h (not_le.mpr hn)⟩
        (After_cons trivial (After_cons ?_ (ih (wrapInt32 (fc + 1)))))
      exact ⟨r2, t2 ++ Call.packet_unref :: tail, by rw [h2]; rfl⟩
    · exact After_cons ⟨fun hp => absurd hp h, fun _ => ⟨tail, rfl⟩⟩ (After_cons trivial ht)

theorem handlePacket_after (sws : SwsContext) (v : Int) (r : ReadStep) (fc : Int)
    (tail : List Call) (ht : After tail (Next sws)) :
    After ((handlePacket sws v r fc).1 ++ Call.packet_unref :: tail) (Next sws) := by
  unfold handlePacket
  split_ifs with h1 h2
  · obtain ⟨r2, t2, e2⟩ := receiveLoop_head sws r.receives fc
    refine After_cons ⟨fun _ => ⟨r2, t2 ++ Call.packet_unref :: tail, ?_⟩,
      fun hn => absurd h2 (not_le.mpr hn)⟩ (receiveLoop_after sws r.receives fc tail ht)
    rw [e2]; rfl
  · exact After_cons ⟨fun hp => absurd hp h2, fun _ => ⟨tail, rfl⟩⟩ (After_cons trivial ht)
  · exact After_cons trivial ht

theorem readLoop_after (sws : SwsContext) (v : Int) (rs : List ReadStep) (fc : Int)
    (tail : List Call) (ht : After tail (Next sws)) :
    After ((readLoop sws v rs fc).1 ++ tail) (Next sws) := by
  induction rs generalizing fc with
  | nil => exact After_cons trivial ht
  | cons r rs ih =>
    unfold readLoop
    split_ifs with h
    · simp only [List.cons_append, List.append_assoc]
      exact After_cons trivial (handlePacket_after sws v r fc _ (ih _))
    · exact After_cons trivial ht

theorem main_after (env : Env) : After (main env).trace (Next (swsOf env)) := by
  by_cases h : SetupOk env
  · rw [main_ok env h]
    simp only [List.append_assoc]
    refine After_append_left _ _
      (fun c hc post => Next_of_not_loop _ c post (setupTrace_not_loop env c hc))
      (readLoop_after _ _ _ _ _ ?_)
    rw [← List.append_nil cleanup]
    exact After_append_left _ _
      (fun c hc post => Next_of_not_loop _ c post (cleanup_not_loop c hc)) (After_nil _)
  · rw [← List.append_nil (main env).trace]
    exact After_append_left _ _
      (fun c hc post => Next_of_not_loop _ c post ((main_fail env h).2.2 c hc)) (After_nil _)

/-! ## Pictures received and frames handed off -/

theorem Balanced_nil : Balanced [] := by
  refine ⟨rfl, ?_⟩
  intro pre post h
  have hp : pre = [] := (List.append_eq_nil.mp h.symm).1
  subst hp
  simp

theorem Balanced_append {a b : List Call} (ha : Balanced a) (hb : Balanced b) :
    Balanced (a ++ b) := by
  obtain ⟨ta, ia⟩ := ha
  obtain ⟨tb, ib⟩ := hb
  refine ⟨by simp [List.countP_append, ta, tb], ?_⟩
  intro pre post h
  rcases List.append_eq_append_iff.mp h with ⟨a2, rfl, rfl⟩ | ⟨c2, rfl, rfl⟩
  · obtain ⟨h1, h2, h3⟩ := ib a2 post rfl
    simp only [List.countP_append]
    refine ⟨by omega, by omega, ?_⟩
    intro c rest hc hin
    have := h3 c rest hc hin
    omega
  · obtain ⟨h1, h2, h3⟩ := ia pre c2 rfl
    refine ⟨h1, h2, ?_⟩
    intro c rest hc hin
    cases c2 with
    | nil =>
      simp only [List.append_nil] at ta
      exact ta
    | cons x c2 =>
      simp only [List.cons_append, List.cons.injEq] at hc
      exact h3 x c2 rfl (by rw [hc.1]; exact hin)

theorem Balanced_single (x : Call) (hp : isPicture x = false) (hi : isImwrite x = false) :
    Balanced [x] := by
  refine ⟨by simp [List.countP_cons, hp, hi], ?_⟩
  intro pre post h
  rcases pre with _ | ⟨y, pre⟩
  · simp
  · simp only [List.cons_append, List.cons.injEq] at h
    have hpre : pre = [] := (List.append_eq_nil.mp h.2.symm).1
    subst hpre
    rw [← h.1]
    simp [List.countP_cons, hp, hi]

theorem Balanced_cons {x : Call} {t : List Call} (hp : isPicture x = false)
    (hi : isImwrite x = false) (ht : Balanced t) : Balanced (x :: t) :=
  Balanced_append (Balanced_single x hp hi) ht

theorem Balanced_of_neutral (t : List Call)
    (h : ∀ c ∈ t, isLoopCall c = false) : Balanced t := by
  induction t with
  | nil => exact Balanced_nil
  | cons x t ih =>
    have hx := h x (List.mem_cons_self x t)
    refine Balanced_cons ?_ ?_ (ih (fun c hc => h c (List.mem_cons_of_mem x hc)))
    · cases x <;> simp [isLoopCall] at hx <;> rfl
    · cases x <;> simp [isLoopCall] at hx <;> rfl

theorem Balanced_convert (sws : SwsContext) (r : ReceiveStep) (h : 0 ≤ r.ret) :
    Balanced (Call.receive_frame r :: convertCalls sws r) := by
  refine ⟨by simp [convertCalls, List.countP_cons, isPicture, isImwrite, h], ?_⟩
  intro pre post hs
  rcases pre with _ | ⟨a, _ | ⟨b, _ | ⟨c, _ | ⟨d, pre⟩⟩⟩⟩
  · simp
  · simp only [convertCalls, List.cons_append, List.nil_append, List.cons.injEq] at hs
    obtain ⟨rfl, rfl⟩ := hs
    simp [List.countP_cons, isPicture, isImwrite, isInput, h]
  · simp only [convertCalls, List.cons_append, List.nil_append, List.cons.injEq] at hs
    obtain ⟨rfl, rfl, rfl⟩ := hs
    simp [List.countP_cons, isPicture, isImwrite, isInput, h]
  · simp only [convertCalls, List.cons_append, List.nil_append, List.cons.injEq] at hs
    obtain ⟨rfl, rfl, rfl, rfl⟩ := hs
    simp [List.countP_cons, isPicture, isImwrite, isInput, h]
  · simp [convertCalls] at hs

theorem receiveLoop_balanced (sws : SwsContext) (rs : List ReceiveStep) (fc : Int) :
    Balanced (receiveLoop sws rs fc).1 := by
  induction rs generalizing fc with
  | nil => exact Balanced_single _ (by simp [isPicture, ReceiveStep.eagain, AVERROR_EAGAIN]) rfl
  | cons r rs ih =>
    unfold receiveLoop
    split_ifs with h
    · exact Balanced_append (Balanced_convert sws r h) (ih _)
    · exact Balanced_single _ (by simpa [isPicture] using h) rfl

theorem handlePacket_balanced (sws : SwsContext) (v : Int) (r : ReadStep) (fc : Int) :
    Balanced (handlePacket sws v r fc).1 := by
  unfold handlePacket
  split_ifs with h1 h2
  · exact Balanced_cons rfl rfl (receiveLoop_balanced sws r.receives fc)
  · exact Balanced_single _ rfl rfl
  · exact Balanced_nil

theorem readLoop_balanced (sws : SwsContext) (v : Int) (rs : List ReadStep) (fc : Int) :
    Balanced (readLoop sws v rs fc).1 := by
  induction rs generalizing fc with
  | nil => exact Balanced_single _ rfl rfl
  | cons r rs ih =>
    unfold readLoop
    split_ifs with h
    · exact Balanced_cons rfl rfl
        (Balanced_append (handlePacket_balanced sws v r fc) (Balanced_cons rfl rfl (ih _)))
    · exact Balanced_single _ rfl rfl

theorem main_balanced (env : Env) : Balanced (main env).trace := by
  by_cases h : SetupOk env
  · rw [main_ok env h]
    exact Balanced_append (Balanced_append (Balanced_of_neutral _ (setupTrace_not_loop env))
      (readLoop_balanced _ _ _ _)) (Balanced_of_neutral _ cleanup_not_loop)
  · exact Balanced_of_neutral _ (main_fail env h).2.2

/-! ## The read loop, packet by packet -/

theorem readLoop_append (sws : SwsContext) (v : Int) (pre rest : List ReadStep) (fc : Int)
    (hpre : ∀ p ∈ pre, 0 ≤ p.ret) :
    readLoop sws v (pre ++ rest) fc =
      ((loopPrefix sws v pre fc).1 ++ (readLoop sws v rest (loopPrefix sws v pre fc).2).1,
        (readLoop sws v rest (loopPrefix sws v pre fc).2).2) := by
  induction pre generalizing fc with
  | nil => simp [loopPrefix]
  | cons r pre ih =>
    have hr : 0 ≤ r.ret := hpre r (List.mem_cons_self r pre)
    have ih2 := ih (handlePacket sws v r fc).2 (fun p hp => hpre p (List.mem_cons_of_mem r hp))
    simp only [List.cons_append, readLoop, hr, if_true, loopPrefix, List.append_eq, ih2,
      List.append_assoc, List.cons_append]

theorem readLoop_stop (sws : SwsContext) (v : Int) (r : ReadStep) (post : List ReadStep)
    (fc : Int) (hr : r.ret < 0) :
    readLoop sws v (r :: post) fc = ([Call.read_frame r.ret r.packet], fc) := by
  simp [readLoop, not_le.mpr hr]

theorem receiveLoop_loopCalls (sws : SwsContext) (rs : List ReceiveStep) (fc : Int) :
    ∀ c ∈ (receiveLoop sws rs fc).1, isLoopCall c = true ∧ isReadFrame c = false := by
  induction rs generalizing fc with
  | nil =>
    intro c hc
    simp only [receiveLoop, List.mem_singleton] at hc
    subst hc
    exact ⟨rfl, rfl⟩
  | cons r rs ih =>
    unfold receiveLoop
    split_ifs with h
    · intro c hc
      simp only [List.mem_cons] at hc
      rcases hc with rfl | rfl | rfl | hc
      · exact ⟨rfl, rfl⟩
      · exact ⟨rfl, rfl⟩
      · exact ⟨rfl, rfl⟩
      · exact ih _ c hc
    · intro c hc
      simp only [List.mem_singleton] at hc
      subst hc
      exact ⟨rfl, rfl⟩

theorem handlePacket_loopCalls (sws : SwsContext) (v : Int) (r : ReadStep) (fc : Int) :
    ∀ c ∈ (handlePacket sws v r fc).1, isLoopCall c = true ∧ isReadFrame c = false := by
  unfold handlePacket
  split_ifs with h1 h2
  · intro c hc
    simp only [List.mem_cons] at hc
    rcases hc with rfl | hc
    · exact ⟨rfl, rfl⟩
    · exact receiveLoop_loopCalls sws _ _ c hc
  · intro c hc
    simp only [List.mem_singleton] at hc
    subst hc
    exact ⟨rfl, rfl⟩
  · intro c hc
    simp at hc

theorem readLoop_loopCalls (sws : SwsContext) (v : Int) (rs : List ReadStep) (fc : Int) :
    ∀ c ∈ (readLoop sws v rs fc).1, isLoopCall c = true := by
  induction rs generalizing fc with
  | nil =>
    intro c hc
    simp only [readLoop, List.mem_singleton] at hc
    subst hc
    rfl
  | cons r rs ih =>
    unfold readLoop
    split_ifs with h
    · intro c hc
      simp only [List.mem_cons, List.mem_append] at hc
      rcases hc with rfl | hc | rfl | hc
      · rfl
      · exact (handlePacket_loopCalls sws v r fc c hc).1
      · rfl
      · exact ih _ c hc
    · intro c hc
      simp only [List.mem_singleton] at hc
      subst hc
      rfl

theorem handlePacket_reads (sws : SwsContext) (v : Int) (r : ReadStep) (fc : Int) :
    (handlePacket sws v r fc).1.countP isReadFrame = 0 := by
  rw [List.countP_eq_zero]
  intro c hc
  simp [(handlePacket_loopCalls sws v r fc c hc).2]

theorem loopPrefix_reads (sws : SwsContext) (v : Int) (pre : List ReadStep) (fc : Int) :
    (loopPrefix sws v pre fc).1.countP isReadFrame = pre.length := by
  induction pre generalizing fc with
  | nil => rfl
  | cons r pre ih =>
    simp only [loopPrefix, List.countP_cons, List.countP_append, handlePacket_reads, ih,
      isReadFrame, List.length_cons]
    simp

theorem receiveLoop_mem (sws : SwsContext) (rs : List ReceiveStep) (fc : Int)
    (r : ReceiveStep) (hr : r ∈ pictures rs) :
    ∀ c ∈ Call.receive_frame r :: convertCalls sws r, c ∈ (receiveLoop sws rs fc).1 := by
  induction rs generalizing fc with
  | nil => simp [pictures] at hr
  | cons a rs ih =>
    unfold receiveLoop
    unfold pictures at hr
    rw [List.takeWhile_cons] at hr
    split_ifs with h
    · simp only [h, decide_True, if_true, List.mem_cons] at hr
      intro c hc
      rcases hr with rfl | hr
      · simp only [convertCalls, List.mem_cons, List.mem_singleton, List.not_mem_nil,
          or_false] at hc
        rcases hc with rfl | rfl | rfl <;> simp [List.mem_cons]
      · have := ih (wrapInt32 (fc + 1)) hr c hc
        simp [List.mem_cons, this]
    · simp [h] at hr

theorem loopPrefix_mem (sws : SwsContext) (v : Int) (pre : List ReadStep) (fc : Int)
    (q : ReadStep) (hq : q ∈ pre) :
    Call.read_frame q.ret q.packet ∈ (loopPrefix sws v pre fc).1 ∧
    (q.packet.stream_index = v →
      Call.send_packet q.packet q.send_ret ∈ (loopPrefix sws v pre fc).1 ∧
      (0 ≤ q.send_ret → ∀ r ∈ pictures q.receives,
        ∀ c ∈ Call.receive_frame r :: convertCalls sws r, c ∈ (loopPrefix sws v pre fc).1)) := by
  induction pre generalizing fc with
  | nil => simp at hq
  | cons a pre ih =>
    simp only [loopPrefix]
    rcases List.mem_cons.mp hq with rfl | hq
    · refine ⟨List.mem_cons_self _ _, fun hv => ⟨?_, fun hs r hr c hc => ?_⟩⟩
      · by_cases hs : 0 ≤ q.send_ret <;> simp [handlePacket, hv, hs]
      · have := receiveLoop_mem sws q.receives fc r hr c hc
        simp [handlePacket, hv, hs, this]
    · obtain ⟨h1, h2⟩ := ih (handlePacket sws v a fc).2 hq
      refine ⟨by simp [h1], fun hv => ⟨by simp [(h2 hv).1], fun hs r hr c hc => ?_⟩⟩
      have := (h2 hv).2 hs r hr c hc
      simp [this]

/-! ## Packets read and packets submitted -/

theorem receiveLoop_packets (sws : SwsContext) (rs : List ReceiveStep) (fc : Int) :
    sentPackets (receiveLoop sws rs fc).1 = [] ∧ readPackets (receiveLoop sws rs fc).1 = [] := by
  induction rs generalizing fc with
  | nil => exact ⟨rfl, rfl⟩
  | cons r rs ih =>
    unfold receiveLoop
    split_ifs with h
    · obtain ⟨h1, h2⟩ := ih (wrapInt32 (fc + 1))
      unfold sentPackets readPackets at *
      simp only [List.filterMap_cons, h1, h2, and_self]
    · exact ⟨rfl, rfl⟩

theorem handlePacket_packets (sws : SwsContext) (v : Int) (r : ReadStep) (fc : Int) :
    sentPackets (handlePacket sws v r fc).1
        = [r.packet].filter (fun p => decide (p.stream_index = v)) ∧
      readPackets (handlePacket sws v r fc).1 = [] := by
  unfold handlePacket
  obtain ⟨h1, h2⟩ := receiveLoop_packets sws r.receives fc
  split_ifs with hv hs
  · unfold sentPackets readPackets at *
    simp [List.filterMap_cons, h1, h2, hv]
  · simp [sentPackets, readPackets, hv]
  · simp [sentPackets, readPackets, hv]

theorem readLoop_packets (sws : SwsContext) (v : Int) (rs : List ReadStep) (fc : Int) :
    sentPackets (readLoop sws v rs fc).1 =
      (readPackets (readLoop sws v rs fc).1).filter (fun p => decide (p.stream_index = v)) := by
  induction rs generalizing fc with
  | nil => simp [readLoop, sentPackets, readPackets, ReadStep.eof, AVERROR_EOF]
  | cons r rs ih =>
    unfold readLoop
    split_ifs with h
    · obtain ⟨h1, h2⟩ := handlePacket_packets sws v r fc
      have ih2 := ih (handlePacket sws v r fc).2
      unfold sentPackets readPackets at *
      simp only [List.filterMap_cons, List.filterMap_append, h1, h2, ih2, h, if_true,
        List.nil_append]
      simp only [List.filter_cons, List.filter_nil]
      split_ifs <;> simp
    · simp [sentPackets, readPackets, h]

theorem not_loop_packets (t : List Call) (h : ∀ c ∈ t, isLoopCall c = false) :
    sentPackets t = [] ∧ readPackets t = [] := by
  induction t with
  | nil => exact ⟨rfl, rfl⟩
  | cons x t ih =>
    obtain ⟨h1, h2⟩ := ih (fun c hc => h c (List.mem_cons_of_mem x hc))
    have hx := h x (List.mem_cons_self x t)
    unfold sentPackets readPackets at *
    cases x <;> simp [isLoopCall] at hx <;> simp [List.filterMap_cons, h1, h2]

/-! ## The frame counter -/

theorem wrapInt32_add (a b : Int) : wrapInt32 (wrapInt32 a + b) = wrapInt32 (a + b) := by
  unfold wrapInt32
  omega

theorem wrapInt32_range (a : Int) : -2147483648 ≤ wrapInt32 a ∧ wrapInt32 a < 2147483648 := by
  unfold wrapInt32
  omega

theorem wrapInt32_id (a : Int) (h1 : -2147483648 ≤ a) (h2 : a < 2147483648) :
    wrapInt32 a = a := by
  unfold wrapInt32
  omega

theorem receiveLoop_count (sws : SwsContext) (rs : List ReceiveStep) (fc : Int)
    (h1 : -2147483648 ≤ fc) (h2 : fc < 2147483648) :
    (receiveLoop sws rs fc).2 =
      wrapInt32 (fc + ((receiveLoop sws rs fc).1.countP isPicture : Nat)) := by
  induction rs generalizing fc with
  | nil =>
    simp [receiveLoop, List.countP_cons, isPicture, ReceiveStep.eagain, AVERROR_EAGAIN,
      wrapInt32_id fc h1 h2]
  | cons r rs ih =>
    unfold receiveLoop
    split_ifs with h
    · have hr := wrapInt32_range (fc + 1)
      simp only [List.countP_cons, isPicture, h, decide_True, if_true,
        Bool.false_eq_true, if_false, add_zero]
      rw [ih (wrapInt32 (fc + 1)) hr.1 hr.2, wrapInt32_add]
      congr 1
      push_cast
      ring
    · simp [List.countP_cons, isPicture, h, wrapInt32_id fc h1 h2]

theorem handlePacket_count (sws : SwsContext) (v : Int) (r : ReadStep) (fc : Int)
    (h1 : -2147483648 ≤ fc) (h2 : fc < 2147483648) :
    (handlePacket sws v r fc).2 =
      wrapInt32 (fc + ((handlePacket sws v r fc).1.countP isPicture : Nat)) := by
  unfold handlePacket
  split_ifs with hv hs
  · simp only [List.countP_cons, isPicture, Bool.false_eq_true, if_false, add_zero]
    exact receiveLoop_count sws r.receives fc h1 h2
  · simp [List.countP_cons, isPicture, wrapInt32_id fc h1 h2]
  · simp [wrapInt32_id fc h1 h2]

theorem readLoop_count (sws : SwsContext) (v : Int) (rs : List ReadStep) (fc : Int)
    (h1 : -2147483648 ≤ fc) (h2 : fc < 2147483648) :
    (readLoop sws v rs fc).2 =
      wrapInt32 (fc + ((readLoop sws v rs fc).1.countP isPicture : Nat)) := by
  induction rs generalizing fc with
  | nil => simp [readLoop, List.countP_cons, isPicture, wrapInt32_id fc h1 h2]
  | cons r rs ih =>
    unfold readLoop
    split_ifs with h
    · have hb := handlePacket_count sws v r fc h1 h2
      have hr := wrapInt32_range (fc + ((handlePacket sws v r fc).1.countP isPicture : Nat))
      rw [← hb] at hr
      simp only [List.countP_cons, List.countP_append, isPicture, Bool.false_eq_true,
        if_false, add_zero]
      rw [ih (handlePacket sws v r fc).2 hr.1 hr.2]
      conv_lhs => rw [hb]
      rw [wrapInt32_add]
      congr 1
      push_cast
      rw [← hb]
      ring
    · simp [List.countP_cons, isPicture, wrapInt32_id fc h1 h2]

/-! ## Exit status and teardown -/

theorem readLoop_last (sws : SwsContext) (v : Int) (rs : List ReadStep) (fc : Int) :
    ∃ t code pkt, (readLoop sws v rs fc).1 = t ++ [Call.read_frame code pkt] ∧ code < 0 := by
  induction rs generalizing fc with
  | nil => exact ⟨[], AVERROR_EOF, AVPacket.blank, rfl, by decide⟩
  | cons r rs ih =>
    unfold readLoop
    split_ifs with h
    · obtain ⟨t, code, pkt, ht, hc⟩ := ih (handlePacket sws v r fc).2
      refine ⟨Call.read_frame r.ret r.packet
        :: ((handlePacket sws v r fc).1 ++ Call.packet_unref :: t), code, pkt, ?_, hc⟩
      simp [ht]
    · exact ⟨[], r.ret, r.packet, rfl, not_le.mp h⟩

theorem exit_status_fail (env : Env) (h : ¬ SetupOk env) : exit_status (main env).ret ≠ 0 := by
  rw [(main_fail env h).1]
  decide

/-- C2: the exit status of `main` is 0 when set-up succeeds and the packet
sequence then ends (the last call before the cleanup is a read that returned a
negative value), and it is non-zero on each fatal set-up error: open failure,
stream-info failure, no video stream, codec not found, context allocation,
parameter copy or codec open failing, conversion context not created. -/
theorem C2_exit_status (env : Env) :
    (env.open_ret ≠ 0 → exit_status (main env).ret ≠ 0) ∧
    (env.stream_info_ret < 0 → exit_status (main env).ret ≠ 0) ∧
    ((∀ s ∈ env.streams, s.codecpar.codec_type ≠ AVMediaType.VIDEO) →
        exit_status (main env).ret ≠ 0) ∧
    ((findVideoStream env.decoders env.streams 0).codec = none →
        exit_status (main env).ret ≠ 0) ∧
    (env.alloc_ok = false → exit_status (main env).ret ≠ 0) ∧
    (env.params_ret < 0 → exit_status (main env).ret ≠ 0) ∧
    (env.open2_ret < 0 → exit_status (main env).ret ≠ 0) ∧
    (env.sws_ok = false → exit_status (main env).ret ≠ 0) ∧
    (SetupOk env → exit_status (main env).ret = 0 ∧
        ∃ t code pkt, (main env).trace = t ++ Call.read_frame code pkt :: cleanup ∧ code < 0) ∧
    (exit_status (main env).ret = 0 ↔ SetupOk env) := by
  have hok : SetupOk env → exit_status (main env).ret = 0 := by
    intro h
    rw [main_ok env h]
    rfl
  refine ⟨?_, ?_, ?_, ?_, ?_, ?_, ?_, ?_, ?_, ?_⟩
  · intro h
    exact exit_status_fail env (fun hs => h hs.1)
  · intro h
    exact exit_status_fail env (fun hs => absurd hs.2.1 (not_le.mpr h))
  · intro h
    exact exit_status_fail env
      (fun hs => hs.2.2.1 ((findVideoStream_none_iff env.decoders env.streams 0).mpr h))
  · intro h
    exact exit_status_fail env (fun hs => hs.2.2.2.1 h)
  · intro h
    exact exit_status_fail env (fun hs => by
      have := hs.2.2.2.2.2.1
      simp [h] at this)
  · intro h
    exact exit_status_fail env (fun hs => absurd hs.2.2.2.2.2.2.1 (not_le.mpr h))
  · intro h
    exact exit_status_fail env (fun hs => absurd hs.2.2.2.2.2.2.2.1 (not_le.mpr h))
  · intro h
    exact exit_status_fail env (fun hs => by
      have := hs.2.2.2.2.2.2.2.2
      simp [h] at this)
  · intro h
    refine ⟨hok h, ?_⟩
    obtain ⟨t, code, pkt, ht, hc⟩ :=
      readLoop_last (swsOf env) (selectedIndex env) env.reads 0
    refine ⟨setupTrace env ++ t, code, pkt, ?_, hc⟩
    rw [main_ok env h]
    simp [ht]
  · constructor
    · intro h
      by_contra hn
      exact exit_status_fail env hn h
    · exact hok

/-- C2 at concrete runs: the camera whose set-up succeeds exits with 0, the
camera advertising audio only exits with 255. -/
theorem C2_exit_status_witness :
    exit_status (main cam).ret = 0 ∧ exit_status (main camAudioOnly).ret ≠ 0 :=
  ⟨((C2_exit_status cam).2.2.2.2.2.2.2.2.1 (by decide)).1,
    (C2_exit_status camAudioOnly).2.2.1 (by decide)⟩

/-- C3, as stated, fails: the camera whose second read returns `AVERROR(EIO)`
after a successful set-up makes `main` return 0, so the run reports status 0. -/
theorem C3_counterexample :
    SetupOk camReadError ∧
    (∃ r ∈ camReadError.reads, r.ret < 0 ∧ r.ret ≠ AVERROR_EOF) ∧
    exit_status (main camReadError).ret = 0 := by
  decide

/-- C3 as amended: when a read fails after successful reads (any negative
result of `av_read_frame`, end-of-stream or not), no further read is issued, the
decoder and then the session are closed, and `main` returns 0. -/
theorem C3_read_error_ends_run (env : Env) (h : SetupOk env)
    (pre post : List ReadStep) (r : ReadStep) (hreads : env.reads = pre ++ r :: post)
    (hpre : ∀ p ∈ pre, 0 ≤ p.ret) (hr : r.ret < 0) :
    (∃ t, (main env).trace =
        t ++ [Call.read_frame r.ret r.packet, Call.sws_freeContext, Call.frame_free,
              Call.packet_free, Call.free_context, Call.close_input, Call.network_deinit] ∧
        t.countP isReadFrame = pre.length) ∧
    (main env).ret = 0 ∧ exit_status (main env).ret = 0 := by
  rw [main_ok env h, hreads, readLoop_append _ _ _ _ _ hpre, readLoop_stop _ _ _ _ _ hr]
  refine ⟨⟨setupTrace env ++ (loopPrefix (swsOf env) (selectedIndex env) pre 0).1, ?_, ?_⟩,
    rfl, rfl⟩
  · simp [cleanup]
  · rw [List.countP_append, loopPrefix_reads, List.countP_eq_zero.mpr, Nat.zero_add]
    intro c hc
    have := setupTrace_not_loop env c hc
    cases c <;> simp [isLoopCall] at this <;> simp [isReadFrame]

/-- C3 as amended, at the camera whose second read fails with `AVERROR(EIO)`. -/
theorem C3_read_error_ends_run_witness :
    (∃ t, (main camReadError).trace =
        t ++ [Call.read_frame (-5) AVPacket.blank, Call.sws_freeContext, Call.frame_free,
              Call.packet_free, Call.free_context, Call.close_input, Call.network_deinit] ∧
        t.countP isReadFrame = 1) ∧
    (main camReadError).ret = 0 ∧ exit_status (main camReadError).ret = 0 :=
  C3_read_error_ends_run camReadError (by decide) [videoRead 1 true] [videoRead 2 true]
    { ret := -5, packet := AVPacket.blank, send_ret := 0, receives := [] }
    rfl (by decide) (by decide)

theorem order_of_split {x y : Call} (A B : List Call) (hA : x ∉ A) (hB : y ∉ B) :
    ∀ pre post, A ++ x :: B = pre ++ x :: post → y ∉ post := by
  intro pre post h
  rcases List.append_eq_append_iff.mp h with ⟨a2, rfl, h2⟩ | ⟨c2, rfl, h2⟩
  · cases a2 with
    | nil =>
      simp only [List.nil_append, List.cons.injEq, true_and] at h2
      rw [← h2]; exact hB
    | cons z a2 =>
      simp only [List.cons_append, List.cons.injEq] at h2
      intro hy
      apply hB
      rw [h2.2]
      simp [hy]
  · cases c2 with
    | nil =>
      simp only [List.nil_append, List.cons.injEq, true_and] at h2
      rw [h2]; exact hB
    | cons z c2 =>
      simp only [List.cons_append, List.cons.injEq] at h2
      exfalso
      apply hA
      rw [← h2.1]
      simp

theorem no_split_of_not_mem {x : Call} (t : List Call) (h : x ∉ t) (P : List Call → Prop) :
    ∀ pre post, t = pre ++ x :: post → P post := by
  intro pre post e
  exfalso
  apply h
  rw [e]
  simp

theorem teardown_not_mem_setup (env : Env) :
    Call.close_input ∉ setupTrace env ∧ Call.free_context ∉ setupTrace env := by
  constructor <;>
  · intro hc
    simp only [setupTrace, List.mem_append, List.mem_cons, List.mem_singleton,
      List.not_mem_nil, or_false] at hc
    casesm* _ ∨ _
    all_goals first
      | (obtain ⟨id, b, hcb⟩ := selection_calls _ _ _ _ (by assumption); cases hcb)
      | (rename_i hh; cases hh)

theorem teardown_not_mem_loop (sws : SwsContext) (v : Int) (rs : List ReadStep) (fc : Int) :
    Call.close_input ∉ (readLoop sws v rs fc).1 ∧
      Call.free_context ∉ (readLoop sws v rs fc).1 := by
  constructor <;>
  · intro hc
    have := readLoop_loopCalls sws v rs fc _ hc
    simp [isLoopCall] at this

theorem selection_not_mem (decoders : List Nat) (streams : List AVStream) (c : Call)
    (hc : ∀ id b, c ≠ Call.find_decoder id b) :
    c ∉ (findVideoStream decoders streams 0).calls ∧
      (findVideoStream decoders streams 0).calls.count c = 0 := by
  have h : c ∉ (findVideoStream decoders streams 0).calls := by
    intro hm
    obtain ⟨id, b, e⟩ := selection_calls decoders streams 0 c hm
    exact hc id b e
  exact ⟨h, List.count_eq_zero.mpr h⟩

theorem selection_early (decoders : List Nat) (streams : List AVStream) (i : Nat) :
    ∀ c ∈ (findVideoStream decoders streams i).calls, isEarlyCall c = true := by
  intro c hc
  obtain ⟨id, b, rfl⟩ := selection_calls decoders streams i c hc
  rfl

theorem main_cases (env : Env) :
    (env.open_ret ≠ 0 ∧ (main env).trace = openTrace env) ∨
    (env.open_ret = 0 ∧ ∃ A, (∀ c ∈ A, isEarlyCall c = true) ∧ Call.alloc_context3 true ∉ A ∧
        (main env).trace = openTrace env ++ A ++ [Call.close_input]) ∨
    (env.open_ret = 0 ∧ ∃ A, (∀ c ∈ A, isEarlyCall c = true) ∧ Call.alloc_context3 true ∈ A ∧
        (main env).trace = openTrace env ++ A ++ [Call.free_context, Call.close_input]) ∨
    (env.open_ret = 0 ∧ ∃ A L, (∀ c ∈ A, isEarlyCall c = true) ∧ Call.alloc_context3 true ∈ A ∧
        (∀ c ∈ L, isLoopCall c = true) ∧
        (main env).trace = openTrace env ++ A ++ L ++ cleanup) := by
  have hsel := selection_early env.decoders env.streams 0
  have hsel2 : Call.alloc_context3 true ∉ (findVideoStream env.decoders env.streams 0).calls :=
    (selection_not_mem env.decoders env.streams _ (by simp)).1
  by_cases h1 : env.open_ret = 0
  swap
  · left
    exact ⟨h1, by simp [main, h1, openTrace]⟩
  right
  by_cases h2 : env.stream_info_ret < 0
  · left
    refine ⟨h1, [Call.find_stream_info env.stream_info_ret], ?_, ?_, ?_⟩
    · simp [isEarlyCall]
    · simp
    · simp [main, h1, h2, openTrace]
  by_cases h3 : (findVideoStream env.decoders env.streams 0).video_stream_index = -1 ∨
      (findVideoStream env.decoders env.streams 0).codec = none ∨
      (findVideoStream env.decoders env.streams 0).codec_params = none
  · left
    refine ⟨h1, [Call.find_stream_info env.stream_info_ret, Call.dump_format]
      ++ (findVideoStream env.decoders env.streams 0).calls, ?_, ?_, ?_⟩
    · intro c hc
      simp only [List.mem_append, List.mem_cons, List.mem_singleton, List.not_mem_nil,
        or_false] at hc
      rcases hc with (rfl | rfl) | hc
      · rfl
      · rfl
      · exact hsel c hc
    · simp [hsel2]
    · simp [main, h1, h2, h3, openTrace]
  by_cases h4 : env.alloc_ok = false
  · left
    refine ⟨h1, [Call.find_stream_info env.stream_info_ret, Call.dump_format]
      ++ (findVideoStream env.decoders env.streams 0).calls
      ++ [Call.alloc_context3 env.alloc_ok], ?_, ?_, ?_⟩
    · intro c hc
      simp only [List.mem_append, List.mem_cons, List.mem_singleton, List.not_mem_nil,
        or_false] at hc
      rcases hc with ((rfl | rfl) | hc) | rfl
      · rfl
      · rfl
      · exact hsel c hc
      · rfl
    · simp [hsel2, h4]
    · simp [main, h1, h2, h3, h4, openTrace]
  have early5 : ∀ c ∈ [Call.find_stream_info env.stream_info_ret, Call.dump_format]
      ++ (findVideoStream env.decoders env.streams 0).calls
      ++ [Call.alloc_context3 env.alloc_ok, Call.parameters_to_context env.params_ret,
          Call.open2 env.open2_ret, Call.packet_alloc, Call.frame_alloc,
          Call.sws_getContext (swsOf env) env.sws_ok], isEarlyCall c = true := by
    intro c hc
    simp only [List.mem_append, List.mem_cons, List.mem_singleton, List.not_mem_nil,
      or_false] at hc
    rcases hc with ((rfl | rfl) | hc) | rfl | rfl | rfl | rfl | rfl | rfl
    · rfl
    · rfl
    · exact hsel c hc
    all_goals rfl
  have h4t : env.alloc_ok = true := by simpa using h4
  right
  by_cases h5 : env.params_ret < 0
  · left
    refine ⟨h1, [Call.find_stream_info env.stream_info_ret, Call.dump_format]
      ++ (findVideoStream env.decoders env.streams 0).calls
      ++ [Call.alloc_context3 env.alloc_ok, Call.parameters_to_context env.params_ret],
      ?_, ?_, ?_⟩
    · intro c hc
      apply early5
      simp only [List.mem_append, List.mem_cons, List.mem_singleton, List.not_mem_nil,
        or_false] at hc ⊢
      tauto
    · simp [h4t]
    · simp [main, h1, h2, h3, h4, h5, openTrace]
  by_cases h6 : env.open2_ret < 0
  · left
    refine ⟨h1, [Call.find_stream_info env.stream_info_ret, Call.dump_format]
      ++ (findVideoStream env.decoders env.streams 0).calls
      ++ [Call.alloc_context3 env.alloc_ok, Call.parameters_to_context env.params_ret,
          Call.open2 env.open2_ret], ?_, ?_, ?_⟩
    · intro c hc
      apply early5
      simp only [List.mem_append, List.mem_cons, List.mem_singleton, List.not_mem_nil,
        or_false] at hc ⊢
      tauto
    · simp [h4t]
    · simp [main, h1, h2, h3, h4, h5, h6, openTrace]
  by_cases h7 : env.sws_ok = false
  · left
    refine ⟨h1, _, early5, ?_, ?_⟩
    · simp [h4t]
    · simp [main, h1, h2, h3, h4, h5, h6, h7, openTrace]
  · right
    refine ⟨h1, _, (readLoop (swsOf env) (selectedIndex env) env.reads 0).1, early5, ?_,
      readLoop_loopCalls _ _ _ _, ?_⟩
    · simp [h4t]
    · simp [main, h1, h2, h3, h4, h5, h6, h7, openTrace, selectedIndex]

theorem early_not_mem (A : List Call) (hA : ∀ c ∈ A, isEarlyCall c = true) (c : Call)
    (hc : isEarlyCall c = false) : c ∉ A ∧ A.count c = 0 := by
  have h : c ∉ A := by
    intro hm
    rw [hA c hm] at hc
    exact Bool.noConfusion hc
  exact ⟨h, List.count_eq_zero.mpr h⟩

theorem loopCalls_not_mem (L : List Call) (hL : ∀ c ∈ L, isLoopCall c = true) (c : Call)
    (hc : isLoopCall c = false) : c ∉ L ∧ L.count c = 0 := by
  have h : c ∉ L := by
    intro hm
    rw [hL c hm] at hc
    exact Bool.noConfusion hc
  exact ⟨h, List.count_eq_zero.mpr h⟩

/-- C4: in the trace of every run, `avformat_close_input` occurs once if
`avformat_open_input` returned 0 and never otherwise, `avcodec_free_context`
occurs once if `avcodec_alloc_context3` returned a context and never otherwise,
and no `avcodec_free_context` comes after the `avformat_close_input`; a run whose
set-up succeeds returns 0 with exactly one of each. -/
theorem C4_teardown_once_ordered (env : Env) :
    ((main env).trace.count Call.close_input =
        if Call.open_input rtsp_url format_opts 0 ∈ (main env).trace then 1 else 0) ∧
    ((main env).trace.count Call.free_context =
        if Call.alloc_context3 true ∈ (main env).trace then 1 else 0) ∧
    (∀ pre post, (main env).trace = pre ++ Call.close_input :: post →
        Call.free_context ∉ post) ∧
    (SetupOk env → exit_status (main env).ret = 0 ∧
        (main env).trace.count Call.close_input = 1 ∧
        (main env).trace.count Call.free_context = 1) := by
  have o1 : Call.close_input ∉ openTrace env := by simp [openTrace]
  have o2 : Call.free_context ∉ openTrace env := by simp [openTrace]
  have o3 : Call.alloc_context3 true ∉ openTrace env := by simp [openTrace]
  have c1 : Call.close_input ∉ cleanup.take 4 := by simp [cleanup]
  have k1 : cleanup = cleanup.take 4 ++ Call.close_input :: [Call.network_deinit] := rfl
  have k2 : Call.free_context ∉ [Call.network_deinit] := by simp
  have k3 : cleanup.count Call.close_input = 1 := by simp [cleanup, List.count_cons]
  have k4 : cleanup.count Call.free_context = 1 := by simp [cleanup, List.count_cons]
  have k5 : Call.open_input rtsp_url format_opts 0 ∉ cleanup := by simp [cleanup]
  have k6 : Call.alloc_context3 true ∉ cleanup := by simp [cleanup]
  have hopen : Call.open_input rtsp_url format_opts 0 ∈ openTrace env ↔ env.open_ret = 0 := by
    simp only [openTrace, List.mem_cons, List.mem_singleton, List.not_mem_nil, or_false,
      Call.open_input.injEq, true_and, false_or, reduceCtorEq]
    exact eq_comm
  refine ⟨?_, ?_, ?_, ?_⟩
  · rcases main_cases env with ⟨h1, e⟩ | ⟨h1, A, hA, -, e⟩ | ⟨h1, A, hA, -, e⟩ |
      ⟨h1, A, L, hA, -, hL, e⟩
    · rw [e, if_neg (fun hm => h1 (hopen.mp hm))]
      exact List.count_eq_zero.mpr o1
    · have a1 := early_not_mem A hA Call.close_input rfl
      rw [e, if_pos (by simp [hopen.mpr h1])]
      simp [List.count_append, List.count_eq_zero.mpr o1, a1.2]
    · have a1 := early_not_mem A hA Call.close_input rfl
      rw [e, if_pos (by simp [hopen.mpr h1])]
      simp [List.count_append, List.count_cons, List.count_eq_zero.mpr o1, a1.2]
    · have a1 := early_not_mem A hA Call.close_input rfl
      have b1 := loopCalls_not_mem L hL Call.close_input rfl
      rw [e, if_pos (by simp [hopen.mpr h1])]
      simp [List.count_append, List.count_eq_zero.mpr o1, a1.2, b1.2, k3]
  · rcases main_cases env with ⟨h1, e⟩ | ⟨h1, A, hA, hna, e⟩ | ⟨h1, A, hA, ha, e⟩ |
      ⟨h1, A, L, hA, ha, hL, e⟩
    · rw [e, if_neg o3]
      exact List.count_eq_zero.mpr o2
    · have a1 := early_not_mem A hA Call.free_context rfl
      rw [e, if_neg (by simp [o3, hna])]
      simp [List.count_append, List.count_cons, List.count_eq_zero.mpr o2, a1.2]
    · have a1 := early_not_mem A hA Call.free_context rfl
      rw [e, if_pos (by simp [ha])]
      simp [List.count_append, List.count_cons, List.count_eq_zero.mpr o2, a1.2]
    · have a1 := early_not_mem A hA Call.free_context rfl
      have b1 := loopCalls_not_mem L hL Call.free_context rfl
      rw [e, if_pos (by simp [ha])]
      simp [List.count_append, List.count_eq_zero.mpr o2, a1.2, b1.2, k4]
  · rcases main_cases env with ⟨h1, e⟩ | ⟨h1, A, hA, -, e⟩ | ⟨h1, A, hA, -, e⟩ |
      ⟨h1, A, L, hA, -, hL, e⟩
    · rw [e]
      exact no_split_of_not_mem _ o1 _
    · have a1 := early_not_mem A hA Call.close_input rfl
      rw [e]
      exact order_of_split (openTrace env ++ A) [] (by simp [o1, a1.1]) (by simp)
    · have a1 := early_not_mem A hA Call.close_input rfl
      have e2 : openTrace env ++ A ++ [Call.free_context, Call.close_input]
          = (openTrace env ++ A ++ [Call.free_context]) ++ Call.close_input :: [] := by simp
      rw [e, e2]
      exact order_of_split _ [] (by simp [o1, a1.1]) (by simp)
    · have a1 := early_not_mem A hA Call.close_input rfl
      have b1 := loopCalls_not_mem L hL Call.close_input rfl
      have e2 : openTrace env ++ A ++ L ++ cleanup
          = (openTrace env ++ A ++ L ++ cleanup.take 4)
              ++ Call.close_input :: [Call.network_deinit] := by
        conv_lhs => rw [k1]
        simp
      rw [e, e2]
      exact order_of_split _ _ (by simp [o1, a1.1, b1.1, c1]) k2
  · intro h
    have t1 := teardown_not_mem_setup env
    have t2 := teardown_not_mem_loop (swsOf env) (selectedIndex env) env.reads 0
    rw [main_ok env h]
    refine ⟨rfl, ?_, ?_⟩
    · simp [List.count_append, List.count_eq_zero.mpr t1.1, List.count_eq_zero.mpr t2.1, k3]
    · simp [List.count_append, List.count_eq_zero.mpr t1.2, List.count_eq_zero.mpr t2.2, k4]

/-- C4 at the camera whose set-up succeeds: one session close, one decoder
close. -/
theorem C4_teardown_once_ordered_witness :
    exit_status (main cam).ret = 0 ∧ (main cam).trace.count Call.close_input = 1 ∧
      (main cam).trace.count Call.free_context = 1 :=
  (C4_teardown_once_ordered cam).2.2.2 (by decide)

/-! ## Conversion and hand-off -/

theorem CV_ELEM_SIZE_8UC3 : CV_ELEM_SIZE CV_8UC3 = 3 := by decide

theorem Mat_create_geometry (h w : Nat) :
    (Mat.create h w CV_8UC3).cols = w ∧ (Mat.create h w CV_8UC3).rows = h ∧
    CV_ELEM_SIZE (Mat.create h w CV_8UC3).type = 3 ∧
    (Mat.create h w CV_8UC3).step = w * 3 ∧
    (Mat.create h w CV_8UC3).datalen = (Mat.create h w CV_8UC3).step * h :=
  ⟨rfl, rfl, CV_ELEM_SIZE_8UC3, by simp [Mat.create, CV_ELEM_SIZE_8UC3], rfl⟩

theorem main_converted_next (env : Env) (pre post : List Call) (r : ReceiveStep)
    (hsplit : (main env).trace = pre ++ Call.receive_frame r :: post) (hret : 0 ≤ r.ret) :
    ∃ rest, post = convertCalls (swsOf env) r ++ rest :=
  (main_after env pre (Call.receive_frame r) post hsplit).1 hret

theorem main_setup_of_loopCall (env : Env) (c : Call) (hc : c ∈ (main env).trace)
    (hl : isLoopCall c = true) : SetupOk env := by
  by_contra hn
  rw [(main_fail env hn).2.2 c hc] at hl
  exact Bool.noConfusion hl

theorem ImwriteOrigin_append {a b : List Call} (ha : ImwriteOrigin a) (hb : ImwriteOrigin b) :
    ImwriteOrigin (a ++ b) := by
  intro name img hm
  rcases List.mem_append.mp hm with hm | hm
  · obtain ⟨r, h1, h2⟩ := ha name img hm
    exact ⟨r, List.mem_append_left _ h1, h2⟩
  · obtain ⟨r, h1, h2⟩ := hb name img hm
    exact ⟨r, List.mem_append_right _ h1, h2⟩

theorem ImwriteOrigin_of_none (t : List Call) (h : ∀ c ∈ t, isImwrite c = false) :
    ImwriteOrigin t := by
  intro name img hm
  have := h _ hm
  simp [isImwrite] at this

theorem ImwriteOrigin_of_not_loop (t : List Call) (h : ∀ c ∈ t, isLoopCall c = false) :
    ImwriteOrigin t := by
  apply ImwriteOrigin_of_none
  intro c hc
  have := h c hc
  cases c <;> simp [isLoopCall] at this <;> rfl

theorem receiveLoop_origin (sws : SwsContext) (rs : List ReceiveStep) (fc : Int) :
    ImwriteOrigin (receiveLoop sws rs fc).1 := by
  induction rs generalizing fc with
  | nil => exact ImwriteOrigin_of_none _ (by simp [receiveLoop, isImwrite])
  | cons r rs ih =>
    unfold receiveLoop
    split_ifs with h
    · have h3 : ImwriteOrigin (Call.receive_frame r :: convertCalls sws r) := by
        intro name img hm
        simp only [convertCalls, List.mem_cons, List.mem_singleton, List.not_mem_nil,
          or_false, reduceCtorEq, false_or, Call.imwrite.injEq] at hm
        exact ⟨r, List.mem_cons_self _ _, h, hm.1, hm.2⟩
      exact ImwriteOrigin_append h3 (ih _)
    · exact ImwriteOrigin_of_none _ (by simp [isImwrite])

theorem handlePacket_origin (sws : SwsContext) (v : Int) (r : ReadStep) (fc : Int) :
    ImwriteOrigin (handlePacket sws v r fc).1 := by
  unfold handlePacket
  split_ifs with h1 h2
  · exact ImwriteOrigin_append (a := [Call.send_packet r.packet r.send_ret])
      (ImwriteOrigin_of_none _ (by simp [isImwrite])) (receiveLoop_origin sws _ _)
  · exact ImwriteOrigin_of_none _ (by simp [isImwrite])
  · exact ImwriteOrigin_of_none _ (by simp)

theorem readLoop_origin (sws : SwsContext) (v : Int) (rs : List ReadStep) (fc : Int) :
    ImwriteOrigin (readLoop sws v rs fc).1 := by
  induction rs generalizing fc with
  | nil => exact ImwriteOrigin_of_none _ (by simp [readLoop, isImwrite])
  | cons r rs ih =>
    unfold readLoop
    split_ifs with h
    · exact ImwriteOrigin_append (a := [Call.read_frame r.ret r.packet])
        (ImwriteOrigin_of_none _ (by simp [isImwrite]))
        (ImwriteOrigin_append (handlePacket_origin sws v r fc)
          (ImwriteOrigin_append (a := [Call.packet_unref])
            (ImwriteOrigin_of_none _ (by simp [isImwrite])) (ih _)))
    · exact ImwriteOrigin_of_none _ (by simp [isImwrite])

theorem main_origin (env : Env) : ImwriteOrigin (main env).trace := by
  by_cases h : SetupOk env
  · rw [main_ok env h]
    exact ImwriteOrigin_append (ImwriteOrigin_append
      (ImwriteOrigin_of_not_loop _ (setupTrace_not_loop env)) (readLoop_origin _ _ _ _))
      (ImwriteOrigin_of_not_loop _ cleanup_not_loop)
  · exact ImwriteOrigin_of_not_loop _ (main_fail env h).2.2

/-- C5: whenever `avcodec_receive_frame` returns a picture while the decoder
context has width `w` and height `h`, the calls that follow convert that picture
into, and hand to the sink, a matrix of `w` columns and `h` rows with 3 bytes per
pixel, row stride `w*3` and a buffer of `stride*h` bytes, the stride being the
destination line size given to `sws_scale` (as long as `w*3` fits an `int`);
and every matrix handed to the sink is of that form, for a picture received. -/
theorem C5_raster_frame_geometry (env : Env) :
    (∀ (pre post : List Call) (ret : Int) (frame : AVFrame) (w h : Nat),
      (main env).trace = pre ++ Call.receive_frame
          { ret := ret, frame := frame, codec_width := w, codec_height := h } :: post →
      0 ≤ ret →
      ∃ ctx stride img rest,
        post = Call.sws_scale ctx frame 0 h img stride :: Call.imwrite "frame.jpg" img :: rest ∧
        img.cols = w ∧ img.rows = h ∧ CV_ELEM_SIZE img.type = 3 ∧
        img.step = w * 3 ∧ img.datalen = img.step * h ∧
        (w * 3 < 2147483648 → stride = (img.step : Int))) ∧
    (∀ name img, Call.imwrite name img ∈ (main env).trace →
      CV_ELEM_SIZE img.type = 3 ∧ img.step = img.cols * 3 ∧
      img.datalen = img.step * img.rows ∧
      ∃ r, Call.receive_frame r ∈ (main env).trace ∧ 0 ≤ r.ret ∧
        img.cols = r.codec_width ∧ img.rows = r.codec_height) := by
  constructor
  · intro pre post ret frame w h hsplit hret
    obtain ⟨rest, hrest⟩ := main_converted_next env pre post _ hsplit hret
    obtain ⟨g1, g2, g3, g4, g5⟩ := Mat_create_geometry h w
    refine ⟨swsOf env, static_cast_int (Mat.create h w CV_8UC3).step,
      Mat.create h w CV_8UC3, rest, hrest, g1, g2, g3, g4, g5, ?_⟩
    intro hw
    rw [g4]
    exact wrapInt32_id _ (by omega) (by omega)
  · intro name img hm
    obtain ⟨r, h1, h2, -, h4⟩ := main_origin env name img hm
    subst h4
    obtain ⟨g1, g2, g3, g4, g5⟩ := Mat_create_geometry r.codec_height r.codec_width
    exact ⟨g3, by rw [g4, g1], by rw [g5, g2], r, h1, h2, g1, g2⟩

/-- C5 at the camera delivering one picture at 640x480: the frame written has
640 columns, 480 rows, 3 bytes per pixel, stride 1920 and 921600 bytes. -/
theorem C5_raster_frame_geometry_witness :
    ∃ ctx stride img rest,
      [Call.sws_scale (swsOf camOnePicture) (pic 1).frame 0 480
          (Mat.create 480 640 CV_8UC3) 1920,
        Call.imwrite "frame.jpg" (Mat.create 480 640 CV_8UC3),
        Call.receive_frame ReceiveStep.eagain, Call.packet_unref,
        Call.read_frame AVERROR_EOF AVPacket.blank] ++ cleanup
        = Call.sws_scale ctx (pic 1).frame 0 480 img stride
            :: Call.imwrite "frame.jpg" img :: rest ∧
      img.cols = 640 ∧ img.rows = 480 ∧ CV_ELEM_SIZE img.type = 3 ∧
      img.step = 640 * 3 ∧ img.datalen = img.step * 480 ∧
      (640 * 3 < 2147483648 → stride = (img.step : Int)) :=
  (C5_raster_frame_geometry camOnePicture).1
    (setupTrace camOnePicture ++
      [Call.read_frame 0 (videoRead 1 true).packet,
       Call.send_packet (videoRead 1 true).packet 0])
    _ 0 (pic 1).frame 640 480 (by decide) (by decide)

/-- C8, as stated, fails: the decoder opened at 640x480 returns a 1280x720
picture; `main` converts it with the 640x480 conversion context, writes the
frame and returns 0. -/
theorem C8_counterexample :
    camResized.width = 640 ∧ camResized.height = 480 ∧
    (main camResized).ret = 0 ∧
    (main camResized).trace = setupTrace camResized ++
      [Call.read_frame 0 { stream_index := 1, key := true, data := 1 },
       Call.send_packet { stream_index := 1, key := true, data := 1 } 0,
       Call.receive_frame { ret := 0, frame := { width := 1280, height := 720, data := 1 },
                            codec_width := 1280, codec_height := 720 },
       Call.sws_scale { srcW := 640, srcH := 480, srcFormat := 0, dstW := 640, dstH := 480,
                        dstFormat := AV_PIX_FMT_BGR24, flags := SWS_BILINEAR }
         { width := 1280, height := 720, data := 1 } 0 720 (Mat.create 720 1280 CV_8UC3) 3840,
       Call.imwrite "frame.jpg" (Mat.create 720 1280 CV_8UC3),
       Call.receive_frame ReceiveStep.eagain,
       Call.packet_unref,
       Call.read_frame AVERROR_EOF AVPacket.blank] ++ cleanup := by
  decide

/-- C8 as amended: `main` never compares a picture with the dimensions the
decoder was opened with; every picture a poll returns, whatever its width and
height, is converted with the conversion context created once at set-up from
the initial dimensions and is handed to the sink, and the run returns 0. -/
theorem C8_no_dimension_check (env : Env) (pre post : List Call) (r : ReceiveStep)
    (hsplit : (main env).trace = pre ++ Call.receive_frame r :: post) (hret : 0 ≤ r.ret) :
    (∃ rest, post =
      Call.sws_scale
          { srcW := env.width, srcH := env.height, srcFormat := env.pix_fmt,
            dstW := env.width, dstH := env.height, dstFormat := AV_PIX_FMT_BGR24,
            flags := SWS_BILINEAR }
          r.frame 0 r.codec_height (Mat.create r.codec_height r.codec_width CV_8UC3)
          (static_cast_int (Mat.create r.codec_height r.codec_width CV_8UC3).step)
        :: Call.imwrite "frame.jpg" (Mat.create r.codec_height r.codec_width CV_8UC3)
        :: rest) ∧
    (main env).ret = 0 ∧ exit_status (main env).ret = 0 := by
  obtain ⟨rest, hrest⟩ := main_converted_next env pre post r hsplit hret
  have hok : SetupOk env :=
    main_setup_of_loopCall env (Call.receive_frame r) (by rw [hsplit]; simp) rfl
  rw [main_ok env hok]
  exact ⟨⟨rest, hrest⟩, rfl, rfl⟩

/-- C8 as amended, at the camera whose decoder returns a 1280x720 picture. -/
theorem C8_no_dimension_check_witness :
    (∃ rest,
      [Call.sws_scale (swsOf camResized) { width := 1280, height := 720, data := 1 } 0 720
          (Mat.create 720 1280 CV_8UC3) 3840,
        Call.imwrite "frame.jpg" (Mat.create 720 1280 CV_8UC3),
        Call.receive_frame ReceiveStep.eagain, Call.packet_unref,
        Call.read_frame AVERROR_EOF AVPacket.blank] ++ cleanup =
      Call.sws_scale
          { srcW := 640, srcH := 480, srcFormat := 0, dstW := 640, dstH := 480,
            dstFormat := AV_PIX_FMT_BGR24, flags := SWS_BILINEAR }
          { width := 1280, height := 720, data := 1 } 0 720 (Mat.create 720 1280 CV_8UC3)
          (static_cast_int (Mat.create 720 1280 CV_8UC3).step)
        :: Call.imwrite "frame.jpg" (Mat.create 720 1280 CV_8UC3)
        :: rest) ∧
    (main camResized).ret = 0 ∧ exit_status (main camResized).ret = 0 :=
  C8_no_dimension_check camResized
    (setupTrace camResized ++
      [Call.read_frame 0 { stream_index := 1, key := true, data := 1 },
       Call.send_packet { stream_index := 1, key := true, data := 1 } 0])
    _ { ret := 0, frame := { width := 1280, height := 720, data := 1 },
        codec_width := 1280, codec_height := 720 }
    (by decide) (by decide)

/-- C9: in the trace of every run, a poll that returns a picture is directly
followed by the conversion of that picture into a fresh matrix and by the
hand-off of that matrix; whenever a read, a submit or a poll is issued, every
picture received so far has been handed off; and at every point of the trace at
most one received picture is not yet handed off. -/
theorem C9_single_outstanding_picture (env : Env) :
    (∀ (pre post : List Call) (r : ReceiveStep),
      (main env).trace = pre ++ Call.receive_frame r :: post → 0 ≤ r.ret →
      ∃ rest, post =
        Call.sws_scale (swsOf env) r.frame 0 r.codec_height
            (Mat.create r.codec_height r.codec_width CV_8UC3)
            (static_cast_int (Mat.create r.codec_height r.codec_width CV_8UC3).step)
          :: Call.imwrite "frame.jpg" (Mat.create r.codec_height r.codec_width CV_8UC3)
          :: rest) ∧
    (∀ (pre post : List Call) (c : Call),
      (main env).trace = pre ++ c :: post → isInput c = true →
      pre.countP isPicture = pre.countP isImwrite) ∧
    (∀ pre post : List Call, (main env).trace = pre ++ post →
      pre.countP isImwrite ≤ pre.countP isPicture ∧
      pre.countP isPicture ≤ pre.countP isImwrite + 1) := by
  refine ⟨?_, ?_, ?_⟩
  · intro pre post r hsplit hret
    exact main_converted_next env pre post r hsplit hret
  · intro pre post c hsplit hc
    exact ((main_balanced env).2 pre (c :: post) hsplit).2.2 c post rfl hc
  · intro pre post hsplit
    obtain ⟨h1, h2, -⟩ := (main_balanced env).2 pre post hsplit
    exact ⟨h1, h2⟩

/-- C9 at the camera delivering one picture: when the second poll is issued the
one picture received has been handed off. -/
theorem C9_single_outstanding_picture_witness :
    (setupTrace camOnePicture ++
      [Call.read_frame 0 (videoRead 1 true).packet,
       Call.send_packet (videoRead 1 true).packet 0,
       Call.receive_frame (pic 1)] ++ convertCalls (swsOf camOnePicture) (pic 1)).countP isPicture
      = (setupTrace camOnePicture ++
      [Call.read_frame 0 (videoRead 1 true).packet,
       Call.send_packet (videoRead 1 true).packet 0,
       Call.receive_frame (pic 1)] ++ convertCalls (swsOf camOnePicture) (pic 1)).countP isImwrite :=
  (C9_single_outstanding_picture camOnePicture).2.1 _
    ([Call.packet_unref, Call.read_frame AVERROR_EOF AVPacket.blank] ++ cleanup)
    (Call.receive_frame ReceiveStep.eagain) (by decide) rfl

/-! ## Submission, polling and fault isolation -/

theorem delivered_split (rs : List ReadStep) :
    rs = delivered rs ++ rs.dropWhile (fun r => decide (0 ≤ r.ret)) ∧
      ∀ p ∈ delivered rs, 0 ≤ p.ret := by
  refine ⟨(List.takeWhile_append_dropWhile _ rs).symm, ?_⟩
  intro p hp
  simpa using List.mem_takeWhile_imp hp

/-- C6: after a successful set-up, whatever the decoder answers for one packet
(in particular a rejected submit or a failed decode), the read loop goes on as
it would from that point: every later packet that is read is read, each one of
the selected stream is submitted, the pictures of each accepted one are
converted and handed off, and `main` returns 0. -/
theorem C6_fault_isolation (env : Env) (h : SetupOk env)
    (pre post : List ReadStep) (bad : ReadStep)
    (hreads : env.reads = pre ++ bad :: post)
    (hpre : ∀ p ∈ pre, 0 ≤ p.ret) (hbad : 0 ≤ bad.ret) :
    exit_status (main env).ret = 0 ∧
    (∃ t fc, (main env).trace =
        t ++ (readLoop (swsOf env) (selectedIndex env) post fc).1 ++ cleanup) ∧
    ∀ q ∈ delivered post,
      Call.read_frame q.ret q.packet ∈ (main env).trace ∧
      (q.packet.stream_index = selectedIndex env →
        Call.send_packet q.packet q.send_ret ∈ (main env).trace ∧
        (0 ≤ q.send_ret → ∀ r ∈ pictures q.receives,
          Call.receive_frame r ∈ (main env).trace ∧
          Call.sws_scale (swsOf env) r.frame 0 r.codec_height
            (Mat.create r.codec_height r.codec_width CV_8UC3)
            (static_cast_int (Mat.create r.codec_height r.codec_width CV_8UC3).step)
            ∈ (main env).trace ∧
          Call.imwrite "frame.jpg" (Mat.create r.codec_height r.codec_width CV_8UC3)
            ∈ (main env).trace)) := by
  have hpre2 : ∀ p ∈ pre ++ [bad], 0 ≤ p.ret := by
    intro p hp
    rcases List.mem_append.mp hp with hp | hp
    · exact hpre p hp
    · simp only [List.mem_singleton] at hp
      rw [hp]; exact hbad
  refine ⟨by rw [main_ok env h]; rfl, ?_, ?_⟩
  · refine ⟨setupTrace env ++ (loopPrefix (swsOf env) (selectedIndex env) (pre ++ [bad]) 0).1,
      (loopPrefix (swsOf env) (selectedIndex env) (pre ++ [bad]) 0).2, ?_⟩
    have e : env.reads = (pre ++ [bad]) ++ post := by simp [hreads]
    rw [main_ok env h, e, readLoop_append _ _ _ _ _ hpre2]
    simp
  · intro q hq
    obtain ⟨hs, hd⟩ := delivered_split post
    have hall : ∀ p ∈ (pre ++ [bad]) ++ delivered post, 0 ≤ p.ret := by
      intro p hp
      rcases List.mem_append.mp hp with hp | hp
      · exact hpre2 p hp
      · exact hd p hp
    have e : env.reads = ((pre ++ [bad]) ++ delivered post)
        ++ post.dropWhile (fun r => decide (0 ≤ r.ret)) := by
      rw [hreads]
      conv_lhs => rw [hs]
      simp
    have hmem : ∀ c ∈ (loopPrefix (swsOf env) (selectedIndex env)
        ((pre ++ [bad]) ++ delivered post) 0).1, c ∈ (main env).trace := by
      intro c hc
      rw [main_ok env h, e, readLoop_append _ _ _ _ _ hall]
      simp only [List.mem_append]
      tauto
    obtain ⟨m1, m2⟩ := loopPrefix_mem (swsOf env) (selectedIndex env)
      ((pre ++ [bad]) ++ delivered post) 0 q (List.mem_append_right _ hq)
    refine ⟨hmem _ m1, fun hv => ⟨hmem _ (m2 hv).1, fun hsend r hr => ?_⟩⟩
    have m3 := (m2 hv).2 hsend r hr
    refine ⟨hmem _ (m3 _ (List.mem_cons_self _ _)), hmem _ (m3 _ ?_), hmem _ (m3 _ ?_)⟩
    · simp [convertCalls]
    · simp [convertCalls]

/-- C6 at the camera whose first video packet is rejected with
`AVERROR_INVALIDDATA`: the second packet is still submitted and its picture is
converted and handed off. -/
theorem C6_fault_isolation_witness :
    exit_status (main camCorrupt).ret = 0 ∧
    (∃ t fc, (main camCorrupt).trace =
        t ++ (readLoop (swsOf camCorrupt) (selectedIndex camCorrupt) [videoRead 2 true] fc).1
          ++ cleanup) ∧
    ∀ q ∈ delivered [videoRead 2 true],
      Call.read_frame q.ret q.packet ∈ (main camCorrupt).trace ∧
      (q.packet.stream_index = selectedIndex camCorrupt →
        Call.send_packet q.packet q.send_ret ∈ (main camCorrupt).trace ∧
        (0 ≤ q.send_ret → ∀ r ∈ pictures q.receives,
          Call.receive_frame r ∈ (main camCorrupt).trace ∧
          Call.sws_scale (swsOf camCorrupt) r.frame 0 r.codec_height
            (Mat.create r.codec_height r.codec_width CV_8UC3)
            (static_cast_int (Mat.create r.codec_height r.codec_width CV_8UC3).step)
            ∈ (main camCorrupt).trace ∧
          Call.imwrite "frame.jpg" (Mat.create r.codec_height r.codec_width CV_8UC3)
            ∈ (main camCorrupt).trace)) :=
  C6_fault_isolation camCorrupt (by decide) [] [videoRead 2 true]
    { ret := 0, packet := { stream_index := 1, key := true, data := 1 },
      send_ret := -1094995529, receives := [] }
    rfl (by decide) (by decide)

/-- C7, as stated, fails: with `skip_frame=nokey` among the options, the first
packet the camera delivers on the video stream is not a key packet, and it is
the first packet submitted to the decoder. -/
theorem C7_counterexample :
    ("skip_frame", "nokey") ∈ format_opts ∧
    Call.open_input rtsp_url format_opts 0 ∈ (main camNonKeyFirst).trace ∧
    readPackets (main camNonKeyFirst).trace =
      [{ stream_index := 1, key := false, data := 1 },
       { stream_index := 1, key := true, data := 2 }] ∧
    sentPackets (main camNonKeyFirst).trace =
      [{ stream_index := 1, key := false, data := 1 },
       { stream_index := 1, key := true, data := 2 }] := by
  decide

/-- C7 as amended: with `skip_frame=nokey` among the options passed when the
session is opened, `main` submits every packet of the selected stream that is
read, whatever its key flag and the key flags of the packets before it. -/
theorem C7_submit_ignores_key_flag (env : Env) (h : SetupOk env)
    (pre post : List ReadStep) (r : ReadStep)
    (hreads : env.reads = pre ++ r :: post)
    (hpre : ∀ p ∈ pre, 0 ≤ p.ret) (hr : 0 ≤ r.ret)
    (hidx : r.packet.stream_index = selectedIndex env) :
    ("skip_frame", "nokey") ∈ format_opts ∧
    Call.open_input rtsp_url format_opts 0 ∈ (main env).trace ∧
    Call.send_packet r.packet r.send_ret ∈ (main env).trace := by
  have hpre2 : ∀ p ∈ pre ++ [r], 0 ≤ p.ret := by
    intro p hp
    rcases List.mem_append.mp hp with hp | hp
    · exact hpre p hp
    · simp only [List.mem_singleton] at hp
      rw [hp]; exact hr
  have e : env.reads = (pre ++ [r]) ++ post := by simp [hreads]
  refine ⟨by decide, ?_, ?_⟩
  · rw [main_ok env h]
    simp [setupTrace, h.1]
  · have m := (loopPrefix_mem (swsOf env) (selectedIndex env) (pre ++ [r]) 0 r
      (by simp)).2 hidx
    rw [main_ok env h, e, readLoop_append _ _ _ _ _ hpre2]
    simp only [List.mem_append]
    exact Or.inl (Or.inr (Or.inl m.1))

/-- C7 as amended, at the camera whose first video packet is not a key packet. -/
theorem C7_submit_ignores_key_flag_witness :
    ("skip_frame", "nokey") ∈ format_opts ∧
    Call.open_input rtsp_url format_opts 0 ∈ (main camNonKeyFirst).trace ∧
    Call.send_packet { stream_index := 1, key := false, data := 1 } 0
      ∈ (main camNonKeyFirst).trace :=
  C7_submit_ignores_key_flag camNonKeyFirst (by decide) [] [videoRead 2 true]
    (videoRead 1 false) rfl (by decide) (by decide) (by decide)

theorem pictures_not_loop (t : List Call) (h : ∀ c ∈ t, isLoopCall c = false) :
    t.countP isPicture = 0 := by
  rw [List.countP_eq_zero]
  intro c hc
  have := h c hc
  cases c <;> simp [isLoopCall] at this <;> simp [isPicture]

theorem main_frame_count (env : Env) :
    (main env).frame_count = wrapInt32 (((main env).trace.countP isPicture : Nat) : Int) := by
  by_cases h : SetupOk env
  · rw [main_ok env h]
    simp only [List.countP_append, pictures_not_loop _ (setupTrace_not_loop env),
      pictures_not_loop _ cleanup_not_loop, Nat.zero_add, Nat.add_zero]
    have := readLoop_count (swsOf env) (selectedIndex env) env.reads 0 (by decide) (by decide)
    simpa using this
  · rw [(main_fail env h).2.1, pictures_not_loop _ (main_fail env h).2.2]
    rfl

theorem main_packets (env : Env) :
    sentPackets (main env).trace =
      (readPackets (main env).trace).filter
        (fun p => decide (p.stream_index = selectedIndex env)) := by
  by_cases h : SetupOk env
  · rw [main_ok env h]
    obtain ⟨a1, a2⟩ := not_loop_packets _ (setupTrace_not_loop env)
    obtain ⟨b1, b2⟩ := not_loop_packets _ cleanup_not_loop
    have hl := readLoop_packets (swsOf env) (selectedIndex env) env.reads 0
    unfold sentPackets readPackets at *
    simp only [List.filterMap_append, a1, a2, b1, b2, List.nil_append, List.append_nil, hl]
  · obtain ⟨a1, a2⟩ := not_loop_packets _ (main_fail env h).2.2
    rw [a1, a2]
    rfl

/-- C10, as stated, fails: the one video packet of the camera is submitted
and rejected with `AVERROR(EAGAIN)`; the decoder is not polled after that
submit, the next call is `av_packet_unref`. -/
theorem C10_counterexample :
    (main camRejected).trace = setupTrace camRejected ++
      [Call.read_frame 0 { stream_index := 1, key := true, data := 1 },
       Call.send_packet { stream_index := 1, key := true, data := 1 } (-11),
       Call.packet_unref,
       Call.read_frame AVERROR_EOF AVPacket.blank] ++ cleanup ∧
    sentPackets (main camRejected).trace = [{ stream_index := 1, key := true, data := 1 }] ∧
    (main camRejected).trace.countP isPoll = 0 := by
  decide

/-- C10 as amended: the packets submitted are, in order, the packets read
whose stream index is the selected one; after a submit the decoder accepted it
is polled, and polled again after each picture has been converted and handed
off, until a poll returns a negative value, while after a submit the decoder
rejected it is not polled and the packet is released; the frames handed to the
sink are as many as the pictures the polls returned, and `frame_count` ends as
that number reduced to a 32-bit `int`, so as that number when it is below
2^31. -/
theorem C10_submit_and_drain (env : Env) :
    (sentPackets (main env).trace =
      (readPackets (main env).trace).filter
        (fun p => decide (p.stream_index = selectedIndex env))) ∧
    (∀ (pre post : List Call) (p : AVPacket) (ret : Int),
      (main env).trace = pre ++ Call.send_packet p ret :: post →
      (0 ≤ ret → ∃ r rest, post = Call.receive_frame r :: rest) ∧
      (ret < 0 → ∃ rest, post = Call.packet_unref :: rest)) ∧
    (∀ (pre post : List Call) (r : ReceiveStep),
      (main env).trace = pre ++ Call.receive_frame r :: post →
      (0 ≤ r.ret → ∃ r2 rest,
        post = Call.sws_scale (swsOf env) r.frame 0 r.codec_height
            (Mat.create r.codec_height r.codec_width CV_8UC3)
            (static_cast_int (Mat.create r.codec_height r.codec_width CV_8UC3).step)
          :: Call.imwrite "frame.jpg" (Mat.create r.codec_height r.codec_width CV_8UC3)
          :: Call.receive_frame r2 :: rest) ∧
      (r.ret < 0 → ∃ rest, post = Call.packet_unref :: rest)) ∧
    ((main env).trace.countP isImwrite = (main env).trace.countP isPicture) ∧
    ((main env).frame_count = wrapInt32 (((main env).trace.countP isPicture : Nat) : Int)) ∧
    ((main env).trace.countP isPicture < 2147483648 →
      (main env).frame_count = (((main env).trace.countP isPicture : Nat) : Int)) := by
  refine ⟨main_packets env, ?_, ?_, (main_balanced env).1.symm, main_frame_count env, ?_⟩
  · intro pre post p ret hsplit
    exact main_after env pre (Call.send_packet p ret) post hsplit
  · intro pre post r hsplit
    obtain ⟨h1, h2⟩ := main_after env pre (Call.receive_frame r) post hsplit
    refine ⟨fun hret => ?_, h2⟩
    obtain ⟨rest, hrest⟩ := h1 hret
    have hsplit2 : (main env).trace =
        (pre ++ [Call.receive_frame r,
          Call.sws_scale (swsOf env) r.frame 0 r.codec_height
            (Mat.create r.codec_height r.codec_width CV_8UC3)
            (static_cast_int (Mat.create r.codec_height r.codec_width CV_8UC3).step)])
          ++ Call.imwrite "frame.jpg" (Mat.create r.codec_height r.codec_width CV_8UC3)
          :: rest := by
      rw [hsplit, hrest]
      simp [convertCalls]
    obtain ⟨r2, rest2, h3⟩ := main_after env _ _ rest hsplit2
    exact ⟨r2, rest2, by rw [hrest, h3]; rfl⟩
  · intro hlt
    rw [main_frame_count env]
    exact wrapInt32_id _ (by omega) (by omega)

/-- C10 as amended, at the camera delivering one picture: one frame handed
off for the one picture, and `frame_count` ends at 1. -/
theorem C10_submit_and_drain_witness :
    (main camOnePicture).trace.countP isPicture = 1 ∧
    (main camOnePicture).trace.countP isImwrite = 1 ∧
    (main camOnePicture).frame_count = 1 :=
  ⟨by decide,
    ((C10_submit_and_drain camOnePicture).2.2.2.1).trans (by decide),
    ((C10_submit_and_drain camOnePicture).2.2.2.2.2 (by decide)).trans (by decide)⟩

end HandleRTSP
